import Mathlib

/-!
Verification development for the `pipiline_agent` repository.

Shallow embedding of the core data structures and operations:
memory ledger and agent sockets (`src/core/memory.py`, `src/core/agents.py`),
the agent execution pipeline (`src/core/agents.py`),
the fuzzy aligner (`src/embeddings/aligner.py`, `src/core/chat.py`),
the Ollama chat adapter (`src/chat/chat_ollama.py`),
the command-line monitor and Python workspace tools
(`src/cmd_line/cmd_tools.py`, `src/coding/python_tools.py`),
and the FSM driver (`src/core/fsm.py`).

Python dictionaries are modeled as association lists (`List (String × α)`)
with insertion-order semantics; Python exceptions are modeled with
`Except String`; external libraries (embedding model, rapidfuzz scorer,
`json_repair`, `json.loads`, `jsonschema.validate`, subprocess spawning,
wall clock) are modeled as explicit function parameters.
-/

set_option autoImplicit false

universe u v

/-! ### Association-list dictionaries (Python `dict`) -/

/-- First value bound to `k`, like Python `d[k]` (which raises `KeyError`
when absent; callers handle the `none` case accordingly). -/
def dictGet {α : Type u} (d : List (String × α)) (k : String) : Option α :=
  match d with
  | [] => none
  | (k', v) :: rest => if k' = k then some v else dictGet rest k

/-- Python `d[k] = v`: replace the value in place when the key exists
(keeping its position), otherwise append the new binding. -/
def dictSet {α : Type u} (d : List (String × α)) (k : String) (v : α) : List (String × α) :=
  match d with
  | [] => [(k, v)]
  | (k', v') :: rest => if k' = k then (k', v) :: rest else (k', v') :: dictSet rest k v

/-- Apply `f` to the value bound to `k`, leaving other bindings unchanged. -/
def dictModify {α : Type u} (d : List (String × α)) (k : String) (f : α → α) :
    List (String × α) :=
  match d with
  | [] => []
  | (k', v) :: rest => if k' = k then (k', f v) :: rest else (k', v) :: dictModify rest k f

theorem dictGet_dictSet_self {α : Type u} (d : List (String × α)) (k : String) (v : α) :
    dictGet (dictSet d k v) k = some v := by
  induction d with
  | nil => simp [dictGet, dictSet]
  | cons hd tl ih =>
    obtain ⟨k', v'⟩ := hd
    by_cases h : k' = k <;> simp [dictGet, dictSet, h, ih]

theorem dictGet_dictModify {α : Type u} (d : List (String × α)) (k k' : String) (f : α → α) :
    dictGet (dictModify d k f) k' =
      if k = k' then (dictGet d k').map f else dictGet d k' := by
  induction d with
  | nil => by_cases h : k = k' <;> simp [dictGet, dictModify, h]
  | cons hd tl ih =>
    obtain ⟨k0, v0⟩ := hd
    by_cases h0 : k0 = k
    · subst h0
      by_cases h1 : k0 = k'
      · subst h1; simp [dictGet, dictModify]
      · simp [dictGet, dictModify, h1]
    · by_cases h1 : k0 = k'
      · subst h1
        have hkk : k ≠ k0 := fun h => h0 h.symm
        simp [dictGet, dictModify, h0, hkk]
      · simp [dictGet, dictModify, h0, h1, ih]

theorem mem_dictSet {α : Type u} {d : List (String × α)} {k : String} {v : α}
    {p : String × α} (hp : p ∈ dictSet d k v) : p = (k, v) ∨ p ∈ d := by
  induction d with
  | nil => simpa [dictSet] using hp
  | cons hd tl ih =>
    obtain ⟨k', v'⟩ := hd
    by_cases h : k' = k
    · simp [dictSet, h] at hp
      rcases hp with h1 | h1
      · left; exact h1
      · right; simp [h1]
    · simp [dictSet, h] at hp
      rcases hp with h1 | h1
      · right; simp [h1]
      · rcases ih h1 with h2 | h2
        · left; exact h2
        · right; simp [h2]

/-! ### `src/core/memory.py` -/

/-- `StateSnapshot` (`memory.py` lines 7-17): immutable record of a state's
execution result.  The Python `timestamp` comes from `time.time()`; the wall
clock is modeled as an explicit `Nat` argument to `commit`. -/
structure StateSnapshot where
  timestamp : Nat
  output : String
  context_used : Option String
  deriving DecidableEq, Repr

/-- Stand-in for `str(snapshot)` (`json.dumps(asdict(self))`).  The claims
proved below never depend on the rendered text, only on counts and cursors. -/
def StateSnapshot.render (s : StateSnapshot) : String :=
  s.output

/-- `MemoryLedger` (`memory.py` lines 19-55): `_history` plus the separately
maintained `_snapshots_number` counter, both modeled verbatim. -/
structure MemoryLedger where
  history : List StateSnapshot
  snapshots_number : Nat
  deriving DecidableEq, Repr

/-- `MemoryLedger.__init__`. -/
def MemoryLedger.init : MemoryLedger :=
  { history := [], snapshots_number := 0 }

/-- `MemoryLedger.commit` (lines 31-41): append a snapshot and increment the
counter.  `ts` models the `time.time()` call. -/
def MemoryLedger.commit (l : MemoryLedger) (output : String) (context : Option String)
    (ts : Nat) : MemoryLedger :=
  { history := l.history ++ [{ timestamp := ts, output := output, context_used := context }],
    snapshots_number := l.snapshots_number + 1 }

/-- `MemoryLedger.get_last_snapshot` (lines 43-49). -/
def MemoryLedger.get_last_snapshot (l : MemoryLedger) : Option String :=
  match l.history.getLast? with
  | none => none
  | some s => some s.render

/-- `MemoryLedger.get_history` (lines 51-55). -/
def MemoryLedger.get_history (l : MemoryLedger) : List String :=
  l.history.map StateSnapshot.render

/-! ### `AgentSocket` (`src/core/agents.py` lines 28-78) -/

/-- The mutable part of an `AgentSocket`: its `_cursor`.  The `_memory`
reference is modeled by pairing the cursor with the ledger it reads
(`SocketSys` below); `name` and `description` do not affect any operation. -/
structure AgentSocket where
  cursor : Nat
  deriving DecidableEq, Repr

/-- A socket together with the ledger it references.  Ledger commits by the
owning agent interleave with socket reads on this shared state. -/
structure SocketSys where
  sock : AgentSocket
  ledger : MemoryLedger
  deriving DecidableEq, Repr

/-- `AgentSocket.peek_latest` (lines 48-52): view without marking read. -/
def SocketSys.peek_latest (s : SocketSys) : String × SocketSys :=
  (match s.ledger.get_last_snapshot with
   | none => "None"
   | some t => t, s)

/-- `AgentSocket.read_latest` (lines 54-61): advance `_cursor` to
`snapshots_number`, then return the last snapshot. -/
def SocketSys.read_latest (s : SocketSys) : String × SocketSys :=
  (match s.ledger.get_last_snapshot with
   | none => "None"
   | some t => t,
   { s with sock := { cursor := s.ledger.snapshots_number } })

/-- `AgentSocket.read_new_history` (lines 63-71): return the suffix of the
history past `_cursor`, then set `_cursor` to `len(full_hist)`. -/
def SocketSys.read_new_history (s : SocketSys) : List String × SocketSys :=
  let full_hist := s.ledger.get_history
  (full_hist.drop s.sock.cursor,
   { s with sock := { cursor := full_hist.length } })

/-- `AgentSocket.read_entire_history` (lines 73-78): set `_cursor` to
`snapshots_number` and return the whole history. -/
def SocketSys.read_entire_history (s : SocketSys) : List String × SocketSys :=
  (s.ledger.get_history,
   { s with sock := { cursor := s.ledger.snapshots_number } })

/-- One event on the shared socket/ledger state: a socket read operation or a
commit to the underlying ledger by its owner. -/
inductive SocketOp where
  | peekLatest
  | readLatest
  | readNewHistory
  | readEntireHistory
  | commit (output : String) (context : Option String) (ts : Nat)
  deriving DecidableEq, Repr

/-- Apply one event to the shared state. -/
def SocketSys.applyOp (s : SocketSys) (op : SocketOp) : SocketSys :=
  match op with
  | .peekLatest => s.peek_latest.2
  | .readLatest => s.read_latest.2
  | .readNewHistory => s.read_new_history.2
  | .readEntireHistory => s.read_entire_history.2
  | .commit output context ts => { s with ledger := s.ledger.commit output context ts }

/-- Apply a sequence of events in order. -/
def SocketSys.applyOps (s : SocketSys) (ops : List SocketOp) : SocketSys :=
  ops.foldl SocketSys.applyOp s

/-- Well-formedness of the shared state: the cursor is bounded by the
ledger's snapshot count, and the count agrees with the physical length
(the `MemoryLedger` constructor and `commit` maintain the latter). -/
def SocketSys.WF (s : SocketSys) : Prop :=
  s.sock.cursor ≤ s.ledger.snapshots_number ∧
    s.ledger.snapshots_number = s.ledger.history.length

instance (s : SocketSys) : Decidable s.WF := by
  unfold SocketSys.WF; infer_instance

theorem SocketSys.applyOp_WF {s : SocketSys} (h : s.WF) (op : SocketOp) :
    (s.applyOp op).WF := by
  obtain ⟨hc, hn⟩ := h
  cases op <;>
    simp [SocketSys.applyOp, SocketSys.peek_latest, SocketSys.read_latest,
      SocketSys.read_new_history, SocketSys.read_entire_history,
      MemoryLedger.commit, MemoryLedger.get_history, SocketSys.WF, hn] at * <;>
    omega

theorem SocketSys.applyOp_cursor_mono {s : SocketSys} (h : s.WF) (op : SocketOp) :
    s.sock.cursor ≤ (s.applyOp op).sock.cursor := by
  obtain ⟨hc, hn⟩ := h
  cases op <;>
    simp [SocketSys.applyOp, SocketSys.peek_latest, SocketSys.read_latest,
      SocketSys.read_new_history, SocketSys.read_entire_history,
      MemoryLedger.commit, MemoryLedger.get_history] <;> omega

theorem SocketSys.applyOps_WF {s : SocketSys} (h : s.WF) (ops : List SocketOp) :
    (s.applyOps ops).WF := by
  induction ops generalizing s with
  | nil => simpa [SocketSys.applyOps] using h
  | cons op rest ih =>
    have h1 := SocketSys.applyOp_WF h op
    simpa [SocketSys.applyOps, List.foldl_cons] using ih h1

theorem SocketSys.applyOps_cursor_mono {s : SocketSys} (h : s.WF) (ops : List SocketOp) :
    s.sock.cursor ≤ (s.applyOps ops).sock.cursor := by
  induction ops generalizing s with
  | nil => simp [SocketSys.applyOps]
  | cons op rest ih =>
    have h1 := SocketSys.applyOp_WF h op
    have h2 := SocketSys.applyOp_cursor_mono h op
    calc s.sock.cursor ≤ (s.applyOp op).sock.cursor := h2
      _ ≤ ((s.applyOp op).applyOps rest).sock.cursor := ih h1
      _ = (s.applyOps (op :: rest)).sock.cursor := by
            simp [SocketSys.applyOps, List.foldl_cons]

/-- C8: for every socket, under any sequence of `peek_latest` / `read_latest` /
`read_new_history` / `read_entire_history` operations interleaved with ledger
commits, the cursor is monotonically non-decreasing and never exceeds the
ledger's snapshot count; after `read_latest` on a non-empty ledger the cursor
equals the ledger's length, and `peek_latest` leaves the cursor unchanged. -/
theorem socket_cursor_invariants (s : SocketSys) (ops : List SocketOp) (h : s.WF) :
    ((s.applyOps ops).sock.cursor ≤ (s.applyOps ops).ledger.snapshots_number ∧
      s.sock.cursor ≤ (s.applyOps ops).sock.cursor) ∧
    (s.ledger.history ≠ [] →
      s.read_latest.2.sock.cursor = s.ledger.history.length) ∧
    s.peek_latest.2.sock.cursor = s.sock.cursor := by
  refine ⟨⟨(SocketSys.applyOps_WF h ops).1, SocketSys.applyOps_cursor_mono h ops⟩, ?_, rfl⟩
  intro _
  simp [SocketSys.read_latest, h.2]

/-- Witness for `socket_cursor_invariants` at a concrete socket state and a
concrete operation sequence. -/
theorem socket_cursor_invariants_witness :
    (SocketSys.mk ⟨0⟩ (MemoryLedger.init.commit "a" none 0)).WF ∧
    (let s : SocketSys := ⟨⟨0⟩, MemoryLedger.init.commit "a" none 0⟩
     let ops : List SocketOp := [.readLatest, .commit "b" none 1, .readNewHistory, .peekLatest]
     ((s.applyOps ops).sock.cursor ≤ (s.applyOps ops).ledger.snapshots_number ∧
       s.sock.cursor ≤ (s.applyOps ops).sock.cursor) ∧
     (s.ledger.history ≠ [] →
       s.read_latest.2.sock.cursor = s.ledger.history.length) ∧
     s.peek_latest.2.sock.cursor = s.sock.cursor) :=
  ⟨by decide,
   socket_cursor_invariants ⟨⟨0⟩, MemoryLedger.init.commit "a" none 0⟩
     [.readLatest, .commit "b" none 1, .readNewHistory, .peekLatest] (by decide)⟩

/-! ### `BaseAgent.execute_agent` (`src/core/agents.py` lines 161-190) -/

/-- External JSON machinery used by `execute_agent`:
`json_repair.repair_json`, `json.loads` (with `none` modeling a
`json.JSONDecodeError`), and `jsonschema.validate` (with `.error` modeling a
`ValidationError`, whose text Python embeds in the re-raised `RuntimeError`).
`J` is the type of parsed JSON values, `S` the type of schemas. -/
structure JsonLibs (J S : Type) where
  repair : String → String
  parse : String → Option J
  validate : J → Option S → Except String Unit

/-- The fields of `BaseAgent` relevant to `execute_agent`: its ledger
(`_history`), `_schema` and `_schema_validator`. -/
structure AgentState (J S : Type) where
  history : MemoryLedger
  schema : Option S
  schema_validator : Option S

/-- `BaseAgent.execute_agent` (lines 164-190).

`execOutcome` is the result of the subclass hook `self.__execute__`
(`.error e` when it raises; its exceptions are raised outside the
`try` block and so propagate unchanged).  On success Python commits
`result` (the `AgentExecutionResult` whose `output` was overwritten with the
repaired JSON string) to `self._history`; the committed snapshot is modeled
by the repaired output string.  `ts` models `time.time()` inside `commit`.

Returns the Python return value (or raised message) together with the agent
state after the call. -/
def execute_agent {J S : Type} (libs : JsonLibs J S) (st : AgentState J S)
    (execOutcome : Except String String) (ts : Nat) :
    Except String String × AgentState J S :=
  match execOutcome with
  | .error e => (.error e, st)
  | .ok out =>
    match st.schema with
    | none =>
      -- `if self._schema is not None` is skipped; the try block does nothing
      (.ok out, { st with history := st.history.commit out none ts })
    | some _ =>
      let repaired := libs.repair out
      match libs.parse repaired with
      | none =>
        -- `except json.JSONDecodeError: raise RuntimeError(...)`
        (.error ("Failed to parse JSON output: " ++ repaired), st)
      | some parsed =>
        match libs.validate parsed st.schema_validator with
        | .error e =>
          -- `except Exception as e: raise RuntimeError(f"Error processing output: ...")`
          (.error ("Error processing output: " ++ e), st)
        | .ok _ =>
          (.ok repaired, { st with history := st.history.commit repaired none ts })

/-- C9: for every agent with a defined output schema, `execute_agent` is
atomic with respect to the agent's ledger: when repair+parse+validation all
succeed, exactly one snapshot is committed; when parsing or validation fails,
`execute_agent` raises and the snapshot count is unchanged. -/
theorem execute_agent_ledger_atomic {J S : Type} (libs : JsonLibs J S)
    (st : AgentState J S) (out : String) (ts : Nat) (sch : S)
    (hschema : st.schema = some sch) :
    (∀ parsed, libs.parse (libs.repair out) = some parsed →
      libs.validate parsed st.schema_validator = .ok () →
      (execute_agent libs st (.ok out) ts).1 = .ok (libs.repair out) ∧
      (execute_agent libs st (.ok out) ts).2.history.history =
        st.history.history ++ [⟨ts, libs.repair out, none⟩] ∧
      (execute_agent libs st (.ok out) ts).2.history.snapshots_number =
        st.history.snapshots_number + 1) ∧
    (libs.parse (libs.repair out) = none →
      (execute_agent libs st (.ok out) ts).1 =
        .error ("Failed to parse JSON output: " ++ libs.repair out) ∧
      (execute_agent libs st (.ok out) ts).2 = st) ∧
    (∀ parsed e, libs.parse (libs.repair out) = some parsed →
      libs.validate parsed st.schema_validator = .error e →
      (execute_agent libs st (.ok out) ts).1 = .error ("Error processing output: " ++ e) ∧
      (execute_agent libs st (.ok out) ts).2 = st) := by
  refine ⟨?_, ?_, ?_⟩
  · intro parsed hp hv
    simp [execute_agent, hschema, hp, hv, MemoryLedger.commit]
  · intro hp
    simp [execute_agent, hschema, hp]
  · intro parsed e hp hv
    simp [execute_agent, hschema, hp, hv]

/-- Witness for `execute_agent_ledger_atomic`, with concrete JSON machinery:
parsing succeeds exactly on the string "ok" and validation always passes. -/
theorem execute_agent_ledger_atomic_witness :
    (let libs : JsonLibs Unit Unit :=
       { repair := fun s => s,
         parse := fun s => if s = "ok" then some () else none,
         validate := fun _ _ => .ok () }
     let st : AgentState Unit Unit :=
       { history := MemoryLedger.init, schema := some (), schema_validator := some () }
     st.schema = some () ∧
     ((execute_agent libs st (.ok "ok") 7).1 = .ok "ok" ∧
      (execute_agent libs st (.ok "ok") 7).2.history.snapshots_number = 1) ∧
     ((execute_agent libs st (.ok "bad") 7).1 =
        .error "Failed to parse JSON output: bad" ∧
      (execute_agent libs st (.ok "bad") 7).2.history.snapshots_number = 0)) := by
  refine ⟨rfl, ?_, ?_⟩
  · have h := execute_agent_ledger_atomic
      { repair := fun s => s,
        parse := fun s => if s = "ok" then some () else none,
        validate := fun _ _ => .ok () }
      { history := MemoryLedger.init, schema := some (), schema_validator := some () }
      "ok" 7 () rfl
    have h1 := h.1 () (by decide) rfl
    exact ⟨h1.1, by rw [h1.2.2]; rfl⟩
  · have h := execute_agent_ledger_atomic
      { repair := fun s => s,
        parse := fun s => if s = "ok" then some () else none,
        validate := fun _ _ => .ok () }
      { history := MemoryLedger.init, schema := some (), schema_validator := some () }
      "bad" 7 () rfl
    have h2 := h.2.1 (by decide)
    exact ⟨h2.1, by rw [h2.2]; rfl⟩

/-! ### `src/embeddings/aligner.py` -/

/-- External text machinery used by the aligner: the fastembed
`TextEmbedding` model (`embed`, one vector per phrase, modeled over `Int`)
and the rapidfuzz lexical scorer `fuzz.ratio` (modeled over `Int`;
0..100 in the library). -/
structure TextSim where
  embed : String → List Int
  lexScore : String → String → Int

/-- rapidfuzz `process.extractOne(query, choices, scorer=...)`: the
best-scoring choice together with its score and index (the first of the
maxima), or `None` when the choice list is empty. -/
def extractOne (score : String → String → Int) (query : String)
    (choices : List String) : Option (String × Int × Nat) :=
  choices.enum.foldl
    (fun best iv =>
      match best with
      | none => some (iv.2, score query iv.2, iv.1)
      | some (bc, bs, bi) =>
        if score query iv.2 > bs then some (iv.2, score query iv.2, iv.1)
        else some (bc, bs, bi))
    none

/-- `np.dot` of two vectors. -/
def dotInt (a b : List Int) : Int :=
  (List.zipWith (fun x y => x * y) a b).sum

/-- `np.argmax`: index of the first maximal element (callers only use it on
non-empty lists; `0` is a junk value for the empty case). -/
def argmaxList (xs : List Int) : Nat :=
  match xs.max? with
  | none => 0
  | some m => xs.findIdx (fun v => v = m)

theorem argmaxList_lt_length {xs : List Int} (h : xs ≠ []) :
    argmaxList xs < xs.length := by
  unfold argmaxList
  match hm : xs.max? with
  | none => exact absurd (List.max?_eq_none_iff.mp hm) h
  | some m =>
    have hmem : m ∈ xs := List.max?_mem (fun a b => max_choice a b) hm
    exact List.findIdx_lt_length_of_exists ⟨m, hmem, by simp⟩

/-- `AlignerPool` (`aligner.py` lines 8-17): phrases, their embedding
vectors, the lazily rebuilt matrix cache, the dirty flag and the two
thresholds. -/
structure AlignerPool where
  vectors_list : List (List Int)
  phrases : List String
  vector_matrix : Option (List (List Int))
  is_dirty : Bool
  lexical_threshold : Int
  semantic_threshold : Int
  deriving DecidableEq, Repr

/-- `AlignerPool.__init__` (lines 9-17). -/
def AlignerPool.init (lex sem : Int) : AlignerPool :=
  { vectors_list := [], phrases := [], vector_matrix := none, is_dirty := false,
    lexical_threshold := lex, semantic_threshold := sem }

/-- `AlignerPool.add` (lines 19-23): embed the phrase, append phrase and
vector, mark the matrix dirty. -/
def AlignerPool.add (p : AlignerPool) (model : TextSim) (phrase : String) : AlignerPool :=
  { p with phrases := p.phrases ++ [phrase],
           vectors_list := p.vectors_list ++ [model.embed phrase],
           is_dirty := true }

/-- `AlignerPool.__rebuild_matrix` (lines 25-30).  `np.vstack` on a
non-empty vector list stacks the vectors into a matrix (ragged inputs never
arise: the embedding model emits fixed-dimension vectors).  On an empty list
Python evaluates `np.array()` with no argument, which raises a `TypeError`
before `__is_dirty` is cleared. -/
def AlignerPool.rebuild_matrix (p : AlignerPool) : Except String AlignerPool :=
  if p.vectors_list ≠ [] then
    .ok { p with vector_matrix := some p.vectors_list, is_dirty := false }
  else
    .error "TypeError: array() missing required argument (pos 1)"


/-- The semantic tail of `AlignerPool.match` (`aligner.py` lines 50-63),
factored out over the rebuilt matrix `mat`: the `len(...) == 0` guard,
the dot products with the query embedding, `np.argmax`, the indexing of the
phrase list (the log line on line 59 indexes it before the threshold test),
and the semantic-threshold comparison. -/
def semanticStep (model : TextSim) (sem : Int) (phrases : List String)
    (mat : List (List Int)) (query : String) : Except String (Option String) :=
  if mat.length = 0 then .ok none
  else
    let query_vector := model.embed query
    let scores := mat.map (fun row => dotInt row query_vector)
    let best_match_idx := argmaxList scores
    match phrases.get? best_match_idx with
    | none => .error "IndexError: list index out of range"
    | some best_phrase =>
      if scores.getD best_match_idx 0 ≥ sem then .ok (some best_phrase)
      else .ok none

/-- The lexical step of `AlignerPool.match` (lines 36-45):
`process.extractOne` followed by the lexical-threshold test. -/
def lexicalStep (model : TextSim) (lex : Int) (phrases : List String)
    (query : String) : Option String :=
  match extractOne model.lexScore query phrases with
  | some (matched_str, score, _) =>
    if score ≥ lex then some matched_str else none
  | none => none

/-- `AlignerPool.match` (lines 32-63), named `matchQuery` because `match` is
a Lean keyword.  Returns the Python return value (with raised exceptions as
`.error`) together with the pool state after the call, since the lazy
matrix rebuild mutates the pool in place.

Steps, as in the source: exact phrase hit; lexical scoring against
`__lexical_threshold`; lazy `__rebuild_matrix` when `__is_dirty`;
`len(self.__vector_matrix)` — raising a `TypeError` when the matrix is the
never-initialized `None` — and then the semantic step. -/
def AlignerPool.matchQuery (p : AlignerPool) (model : TextSim) (query : String) :
    Except String (Option String) × AlignerPool :=
  if query ∈ p.phrases then (.ok (some query), p)
  else
    match lexicalStep model p.lexical_threshold p.phrases query with
    | some matched_str => (.ok (some matched_str), p)
    | none =>
      match (if p.is_dirty then p.rebuild_matrix else Except.ok p) with
      | .error e => (.error e, p)
      | .ok p1 =>
        match p1.vector_matrix with
        | none => (.error "TypeError: object of type NoneType has no len()", p1)
        | some mat =>
          (semanticStep model p1.semantic_threshold p1.phrases mat query, p1)

/-- The pool states reachable through `init` / `add` / `matchQuery`:
phrase and vector lists are aligned and the matrix cache is consistent
with the dirty flag. -/
def AlignerPool.WF (p : AlignerPool) : Prop :=
  p.phrases.length = p.vectors_list.length ∧
  (p.is_dirty = false →
    (p.vector_matrix = some p.vectors_list ∧ p.vectors_list ≠ []) ∨
    (p.vector_matrix = none ∧ p.vectors_list = [])) ∧
  (p.is_dirty = true → p.vectors_list ≠ [])

instance (p : AlignerPool) : Decidable p.WF := by
  unfold AlignerPool.WF; infer_instance

/-- The value computed by `AlignerPool.matchQuery` on a well-formed pool,
as a function of the pool's phrases, vectors and thresholds only (the
matrix cache is rebuilt on demand and does not influence the value;
see `matchQuery_fst_eq`). -/
def matchValue (model : TextSim) (lex sem : Int) (phrases : List String)
    (vectors : List (List Int)) (query : String) : Except String (Option String) :=
  if query ∈ phrases then .ok (some query)
  else
    match lexicalStep model lex phrases query with
    | some matched_str => .ok (some matched_str)
    | none =>
      match vectors with
      | [] => .error "TypeError: object of type NoneType has no len()"
      | _ :: _ => semanticStep model sem phrases vectors query

theorem matchQuery_fst_eq (p : AlignerPool) (model : TextSim) (query : String)
    (hwf : p.WF) :
    (p.matchQuery model query).1 =
      matchValue model p.lexical_threshold p.semantic_threshold
        p.phrases p.vectors_list query := by
  obtain ⟨hlen, hclean, hdirty⟩ := hwf
  unfold AlignerPool.matchQuery matchValue
  by_cases hq : query ∈ p.phrases
  · simp [hq]
  · simp only [hq, if_false, if_neg]
    cases hlex : lexicalStep model p.lexical_threshold p.phrases query with
    | some m => simp
    | none =>
      simp only []
      cases hd : p.is_dirty with
      | true =>
        have hne : p.vectors_list ≠ [] := hdirty hd
        cases hv : p.vectors_list with
        | nil => exact absurd hv hne
        | cons v vs => simp [AlignerPool.rebuild_matrix, hv]
      | false =>
        rcases hclean hd with ⟨hm, hne⟩ | ⟨hm, hnil⟩
        · cases hv : p.vectors_list with
          | nil => exact absurd hv hne
          | cons v vs => simp [hm, hv]
        · simp [hm, hnil]

theorem matchQuery_snd_fields (p : AlignerPool) (model : TextSim) (query : String)
    (hwf : p.WF) :
    (p.matchQuery model query).2.phrases = p.phrases ∧
    (p.matchQuery model query).2.vectors_list = p.vectors_list ∧
    (p.matchQuery model query).2.lexical_threshold = p.lexical_threshold ∧
    (p.matchQuery model query).2.semantic_threshold = p.semantic_threshold ∧
    (p.matchQuery model query).2.WF := by
  obtain ⟨hlen, hclean, hdirty⟩ := hwf
  unfold AlignerPool.matchQuery
  by_cases hq : query ∈ p.phrases
  · simp [hq]; exact ⟨hlen, hclean, hdirty⟩
  · simp only [hq, if_false, if_neg]
    cases hlex : lexicalStep model p.lexical_threshold p.phrases query with
    | some m =>
      simp
      exact ⟨hlen, hclean, hdirty⟩
    | none =>
      cases hd : p.is_dirty with
      | true =>
        have hne : p.vectors_list ≠ [] := hdirty hd
        cases hv : p.vectors_list with
        | nil => exact absurd hv hne
        | cons v vs =>
          simp [AlignerPool.rebuild_matrix, hv, AlignerPool.WF]
          simpa [hv] using hlen
      | false =>
        rcases hclean hd with ⟨hm, hne⟩ | ⟨hm, hnil⟩
        · simp [hm]
          exact ⟨hlen, hclean, hdirty⟩
        · simp [hm, hnil]
          exact ⟨hlen, hclean, hdirty⟩

/-- Modelled from the spec (§4.4 "Matching algorithm for a query Q against a
pool"): 1. exact hit returns Q; 2. best lexical match returned when its
score meets the lexical threshold; 3. if any vectors exist, rebuild the
matrix lazily when dirty, dot products between the query embedding and all
stored vectors, argmax, returned when the score meets the semantic
threshold; 4. otherwise null. -/
def matchSpec (model : TextSim) (lex sem : Int) (phrases : List String)
    (vectors : List (List Int)) (query : String) : Option String :=
  if query ∈ phrases then some query
  else
    match lexicalStep model lex phrases query with
    | some matched_str => some matched_str
    | none =>
      match vectors with
      | [] => none
      | _ :: _ =>
        let query_vector := model.embed query
        let scores := vectors.map (fun row => dotInt row query_vector)
        let best_match_idx := argmaxList scores
        match phrases.get? best_match_idx with
        | none => none
        | some best_phrase =>
          if scores.getD best_match_idx 0 ≥ sem then some best_phrase
          else none

/-- Helper: comparing the phrase-indexing tails of `semanticStep` and
`matchSpec` once the index is known to be in range. -/
theorem semantic_tail_eq (phrases : List String) (idx : Nat)
    (hidx : idx < phrases.length) (scores : List Int) (sem : Int) :
    (match phrases.get? idx with
     | none => (Except.error "IndexError: list index out of range" :
         Except String (Option String))
     | some best_phrase =>
       if scores.getD idx 0 ≥ sem then .ok (some best_phrase) else .ok none) =
    .ok (match phrases.get? idx with
         | none => none
         | some best_phrase =>
           if scores.getD idx 0 ≥ sem then some best_phrase else none) := by
  rcases List.get?_eq_get hidx with hg
  rw [hg]
  split_ifs <;> rfl

/-- C7 (amended): on every well-formed pool holding at least one phrase,
`match` follows exactly the spec's order — exact hit, then lexical
threshold, then (rebuilding the matrix lazily when dirty) the maximal
dot-product score against the semantic threshold, else null — and never
raises.  (On a pool with no phrases `match` raises instead of returning
null; see the counterexample.) -/
theorem alignerpool_match_follows_spec_order (p : AlignerPool) (model : TextSim)
    (query : String) (hwf : p.WF) (hne : p.phrases ≠ []) :
    (p.matchQuery model query).1 =
      .ok (matchSpec model p.lexical_threshold p.semantic_threshold
        p.phrases p.vectors_list query) := by
  rw [matchQuery_fst_eq p model query hwf]
  obtain ⟨hlen, _, _⟩ := hwf
  unfold matchValue matchSpec
  by_cases hq : query ∈ p.phrases
  · simp [hq]
  · simp only [hq, if_false, if_neg]
    cases hlex : lexicalStep model p.lexical_threshold p.phrases query with
    | some m => simp
    | none =>
      cases hv : p.vectors_list with
      | nil =>
        exact absurd (List.length_eq_zero.mp (by rw [hlen, hv]; rfl)) hne
      | cons v vs =>
        have hlt : argmaxList ((v :: vs).map
            (fun row => dotInt row (model.embed query))) < p.phrases.length := by
          have h1 : ((v :: vs).map (fun row => dotInt row (model.embed query))) ≠ [] := by
            simp
          have h2 := argmaxList_lt_length h1
          rw [List.length_map] at h2
          rw [hlen, hv]
          exact h2
        simp only [semanticStep]
        rw [if_neg (by simp)]
        exact semantic_tail_eq p.phrases _ hlt
          ((v :: vs).map (fun row => dotInt row (model.embed query)))
          p.semantic_threshold

/-- Witness for `alignerpool_match_follows_spec_order` on a concrete single-
phrase pool and query. -/
theorem alignerpool_match_follows_spec_order_witness :
    (let model : TextSim :=
       ⟨fun s => [Int.ofNat s.length], fun a b => if a = b then 100 else 0⟩
     let p := (AlignerPool.init 90 1).add model "alpha"
     p.WF ∧ p.phrases ≠ [] ∧
       (p.matchQuery model "alph").1 =
         .ok (matchSpec model p.lexical_threshold p.semantic_threshold
           p.phrases p.vectors_list "alph")) := by
  refine ⟨by decide, by decide, ?_⟩
  exact alignerpool_match_follows_spec_order _ _ _ (by decide) (by decide)

/-- Counterexample to C7 as stated: on a pool to which no phrase was ever
added, `match` raises a `TypeError` instead of falling through to the
"otherwise return null" step. -/
theorem alignerpool_match_empty_pool_counterexample :
    (((AlignerPool.init 90 1).matchQuery
        ⟨fun _ => [1], fun _ _ => 0⟩ "query").1 =
      .error "TypeError: object of type NoneType has no len()") ∧
    ((AlignerPool.init 90 1).matchQuery
        ⟨fun _ => [1], fun _ _ => 0⟩ "query").1 ≠ .ok none := by
  refine ⟨rfl, fun h => ?_⟩
  rw [show (((AlignerPool.init 90 1).matchQuery
      ⟨fun _ => [1], fun _ _ => 0⟩ "query").1) =
      .error "TypeError: object of type NoneType has no len()" from rfl] at h
  exact Except.noConfusion h

/-- C10: on a pool to which no phrase has ever been added, `match` raises
for every query: the phrase list is empty so the lexical step finds no
candidate, the dirty flag is still false so the matrix is never rebuilt,
and `len(None)` on the never-initialized matrix raises a `TypeError`. -/
theorem alignerpool_match_never_added_raises (lex sem : Int) (model : TextSim)
    (q : String) :
    (AlignerPool.init lex sem).phrases = [] ∧
    extractOne model.lexScore q (AlignerPool.init lex sem).phrases = none ∧
    (AlignerPool.init lex sem).is_dirty = false ∧
    (AlignerPool.init lex sem).vector_matrix = none ∧
    ((AlignerPool.init lex sem).matchQuery model q).1 =
      .error "TypeError: object of type NoneType has no len()" := by
  refine ⟨rfl, rfl, rfl, rfl, ?_⟩
  simp [AlignerPool.matchQuery, AlignerPool.init, lexicalStep, extractOne]

/-! ### `ToolAligner` (`src/core/chat.py` lines 11-56, `aligner.py` lines 65-95) -/

/-- `ToolCall` (`chat.py` lines 22-25; of the two Python definitions the
later, mutable one is in effect).  `args` is an ordered dictionary with
values of arbitrary type `V`. -/
structure ToolCall (V : Type) where
  name : String
  args : List (String × V)
  deriving DecidableEq, Repr

/-- The state of a `ToolAligner` (`chat.py` lines 28-43): the embedding
model it owns (`Aligner.model`, bundled with the rapidfuzz scorer), the
pool dictionary `Aligner.__pools`, and the two argument-pool thresholds. -/
structure ToolAligner where
  model : TextSim
  pools : List (String × AlignerPool)
  tool_args_lexical_threshold : Int
  tool_args_semantic_threshold : Int

/-- `ToolAligner.__init__` (lines 29-33): creates the "tools" pool; note
that the stored argument lexical threshold is `100 *` the given one. -/
def ToolAligner.init (model : TextSim)
    (tool_name_lexical tool_name_semantic tool_args_lexical tool_args_semantic : Int) :
    ToolAligner :=
  { model := model,
    pools := [("tools", AlignerPool.init tool_name_lexical tool_name_semantic)],
    tool_args_lexical_threshold := 100 * tool_args_lexical,
    tool_args_semantic_threshold := tool_args_semantic }

/-- `ToolAligner.add_tool` (lines 35-43): add the tool name to the "tools"
pool (`Aligner.get_pool` raises when absent) and create the `name + "#args"`
pool (`Aligner.create_pool` raises when it already exists) holding every
argument name. -/
def ToolAligner.add_tool (a : ToolAligner) (name : String) (args : List String) :
    Except String ToolAligner :=
  match dictGet a.pools "tools" with
  | none => .error "RuntimeError: Pool tools does not exist!"
  | some tools_pool =>
    let a1 := { a with pools := dictSet a.pools "tools" (tools_pool.add a.model name) }
    if (dictGet a1.pools (name ++ "#args")).isSome then
      .error ("RuntimeError: Pool " ++ name ++ "#args already exists!")
    else
      let args_pool := args.foldl (fun p arg => p.add a.model arg)
        (AlignerPool.init a.tool_args_lexical_threshold a.tool_args_semantic_threshold)
      .ok { a1 with pools := a1.pools ++ [(name ++ "#args", args_pool)] }

/-- The `for arg in toolcall.args.keys()` loop of
`ToolAligner.align_tool_call` (`chat.py` lines 49-55), threading the
mutable args pool through the successive `match` calls; `corrected`
accumulates `corrected_args` (a Python dict, hence `dictSet`). -/
def alignArgsLoop {V : Type} (model : TextSim) (pool : AlignerPool)
    (corrected : List (String × V)) :
    List (String × V) → Except String (Option (List (String × V)) × AlignerPool)
  | [] => .ok (some corrected, pool)
  | (arg, v) :: rest =>
    match pool.matchQuery model arg with
    | (.error e, _) => .error e
    | (.ok none, pool1) => .ok (none, pool1)
    | (.ok (some matched_arg), pool1) =>
      alignArgsLoop model pool1 (dictSet corrected matched_arg v) rest

/-- `ToolAligner.align_tool_call` (lines 45-56).  Returns the Python return
value together with the aligner state after the call (pool matrix rebuilds
mutate the pools in place). -/
def ToolAligner.align_tool_call {V : Type} (a : ToolAligner) (toolcall : ToolCall V) :
    Except String (Option (ToolCall V) × ToolAligner) :=
  match dictGet a.pools "tools" with
  | none => .error "RuntimeError: Pool tools does not exist!"
  | some tools_pool =>
    match tools_pool.matchQuery a.model toolcall.name with
    | (.error e, _) => .error e
    | (.ok none, tools_pool1) =>
      .ok (none, { a with pools := dictSet a.pools "tools" tools_pool1 })
    | (.ok (some name), tools_pool1) =>
      let a1 := { a with pools := dictSet a.pools "tools" tools_pool1 }
      match dictGet a1.pools (name ++ "#args") with
      | none => .error ("RuntimeError: Pool " ++ name ++ "#args does not exist!")
      | some tool_args_pool =>
        match alignArgsLoop a.model tool_args_pool [] toolcall.args with
        | .error e => .error e
        | .ok (none, args_pool1) =>
          .ok (none, { a1 with pools := dictSet a1.pools (name ++ "#args") args_pool1 })
        | .ok (some corrected_args, args_pool1) =>
          .ok (some { name := name, args := corrected_args },
            { a1 with pools := dictSet a1.pools (name ++ "#args") args_pool1 })

/-- The value `AlignerPool.match` computes for an argument key against the
(well-formed) args pool `ap`; abbreviation used to state C6. -/
def argMatchValue (model : TextSim) (ap : AlignerPool) (k : String) :
    Except String (Option String) :=
  matchValue model ap.lexical_threshold ap.semantic_threshold
    ap.phrases ap.vectors_list k

/-- Behavior of the argument-remapping loop: threading the mutated pool
does not change the matched values (the pool keeps its phrases, vectors
and thresholds), any null match yields an overall null, and a fully
matched key set yields a remapped dictionary in which every value equals
the value of an original key that remapped onto its key. -/
theorem alignArgsLoop_spec {V : Type} (model : TextSim) (ap : AlignerPool)
    (args : List (String × V)) :
    ∀ (pool : AlignerPool) (corrected : List (String × V)),
      pool.WF →
      pool.phrases = ap.phrases → pool.vectors_list = ap.vectors_list →
      pool.lexical_threshold = ap.lexical_threshold →
      pool.semantic_threshold = ap.semantic_threshold →
      (∀ k ∈ args.map Prod.fst, ∀ e, argMatchValue model ap k ≠ .error e) →
      ((∃ k ∈ args.map Prod.fst, argMatchValue model ap k = .ok none) →
        ∃ p1, alignArgsLoop model pool corrected args = .ok (none, p1)) ∧
      ((∀ k ∈ args.map Prod.fst, ∃ mk, argMatchValue model ap k = .ok (some mk)) →
        ∃ res p1, alignArgsLoop model pool corrected args = .ok (some res, p1) ∧
          ∀ q ∈ res, q ∈ corrected ∨
            ∃ k0, (k0, q.2) ∈ args ∧ argMatchValue model ap k0 = .ok (some q.1)) := by
  induction args with
  | nil =>
    intro pool corrected _ _ _ _ _ _
    constructor
    · rintro ⟨k, hk, _⟩
      simp at hk
    · intro _
      exact ⟨corrected, pool, rfl, fun q hq => Or.inl hq⟩
  | cons hd rest ih =>
    obtain ⟨arg, v⟩ := hd
    intro pool corrected hwf h1 h2 h3 h4 hnoerr
    have hval : (pool.matchQuery model arg).1 = argMatchValue model ap arg := by
      rw [matchQuery_fst_eq pool model arg hwf, h1, h2, h3, h4]
      rfl
    have hsnd := matchQuery_snd_fields pool model arg hwf
    rcases hpq : pool.matchQuery model arg with ⟨nres, pool1⟩
    rw [hpq] at hval hsnd
    have harg : arg ∈ ((arg, v) :: rest).map Prod.fst := by simp
    cases nres with
    | error e =>
      exact absurd hval.symm (hnoerr arg harg e)
    | ok onres =>
      cases onres with
      | none =>
        constructor
        · intro _
          exact ⟨pool1, by simp [alignArgsLoop, hpq]⟩
        · intro hall
          rcases hall arg harg with ⟨mk, hmk⟩
          rw [← hval] at hmk
          exact absurd hmk (by simp)
      | some mk =>
        have ihx := ih pool1 (dictSet corrected mk v) hsnd.2.2.2.2
          (hsnd.1.trans h1) (hsnd.2.1.trans h2) (hsnd.2.2.1.trans h3)
          (hsnd.2.2.2.1.trans h4)
          (fun k hk e => hnoerr k (by simp [hk]) e)
        constructor
        · rintro ⟨k, hk, hknull⟩
          simp at hk
          rcases hk with hk | hk
          · subst hk
            rw [← hval] at hknull
            exact absurd hknull (by simp)
          · rcases ihx.1 ⟨k, by simpa using hk, hknull⟩ with ⟨p1, hp1⟩
            exact ⟨p1, by simp [alignArgsLoop, hpq, hp1]⟩
        · intro hall
          rcases ihx.2 (fun k hk => hall k (by simp [hk])) with ⟨res, p1, hres, hprop⟩
          refine ⟨res, p1, by simp [alignArgsLoop, hpq, hres], ?_⟩
          intro q hq
          rcases hprop q hq with hmem | ⟨k0, hk0, hk0m⟩
          · rcases mem_dictSet hmem with heq | hmem2
            · subst heq
              exact Or.inr ⟨arg, by simp, by rw [← hval]⟩
            · exact Or.inl hmem2
          · exact Or.inr ⟨k0, by simp [hk0], hk0m⟩

/-- C6: correcting a `ToolCall`, the tool name is matched first against the
"tools" pool and a null match makes the whole correction return null; then
every argument key is matched against that tool's argument pool and any
null match makes the whole correction return null; otherwise a new
`ToolCall` is returned carrying the resolved tool name and a remapped
arguments dictionary in which every value equals the value of the original
key it was remapped from. -/
theorem toolaligner_align_tool_call_correct {V : Type} (a : ToolAligner)
    (tc : ToolCall V) (tools_pool : AlignerPool)
    (htools : dictGet a.pools "tools" = some tools_pool) :
    ((tools_pool.matchQuery a.model tc.name).1 = .ok none →
      ∃ a1, a.align_tool_call tc = .ok (none, a1)) ∧
    (∀ name args_pool,
      (tools_pool.matchQuery a.model tc.name).1 = .ok (some name) →
      dictGet (dictSet a.pools "tools" (tools_pool.matchQuery a.model tc.name).2)
        (name ++ "#args") = some args_pool →
      args_pool.WF →
      (∀ k ∈ tc.args.map Prod.fst, ∀ e, argMatchValue a.model args_pool k ≠ .error e) →
      ((∃ k ∈ tc.args.map Prod.fst, argMatchValue a.model args_pool k = .ok none) →
        ∃ a1, a.align_tool_call tc = .ok (none, a1)) ∧
      ((∀ k ∈ tc.args.map Prod.fst, ∃ mk,
          argMatchValue a.model args_pool k = .ok (some mk)) →
        ∃ corrected a1,
          a.align_tool_call tc = .ok (some { name := name, args := corrected }, a1) ∧
          ∀ q ∈ corrected, ∃ k0, (k0, q.2) ∈ tc.args ∧
            argMatchValue a.model args_pool k0 = .ok (some q.1))) := by
  rcases hpq : tools_pool.matchQuery a.model tc.name with ⟨nres, tp1⟩
  constructor
  · intro hnull
    simp only at hnull
    subst hnull
    exact ⟨{ a with pools := dictSet a.pools "tools" tp1 },
      by simp [ToolAligner.align_tool_call, htools, hpq]⟩
  · intro name args_pool hname hargs hwf hnoerr
    simp only at hname hargs
    subst hname
    have hloop := alignArgsLoop_spec a.model args_pool tc.args args_pool []
      hwf rfl rfl rfl rfl hnoerr
    constructor
    · intro hnull
      rcases hloop.1 hnull with ⟨p1, hp1⟩
      exact ⟨{ a with pools := dictSet (dictSet a.pools "tools" tp1) (name ++ "#args") p1 },
        by simp [ToolAligner.align_tool_call, htools, hpq, hargs, hp1]⟩
    · intro hall
      rcases hloop.2 hall with ⟨res, p1, hres, hprop⟩
      refine ⟨res,
        { a with pools := dictSet (dictSet a.pools "tools" tp1) (name ++ "#args") p1 },
        by simp [ToolAligner.align_tool_call, htools, hpq, hargs, hres], ?_⟩
      intro q hq
      rcases hprop q hq with hmem | hex
      · simp at hmem
      · exact hex

/-- A tiny deterministic text model for concrete evaluations: embeddings by
string length, lexical score 100 on equality and 0 otherwise. -/
def simW : TextSim :=
  ⟨fun s => [Int.ofNat s.length], fun a b => if a = b then 100 else 0⟩

/-- The "tools" pool of the witness aligner, holding the tool `tool_one`. -/
def toolsPoolW : AlignerPool :=
  (AlignerPool.init 90 1).add simW "tool_one"

/-- The args pool of `tool_one` in the witness aligner (argument `alpha`);
lexical threshold 100 = `100 * 1`, as `ToolAligner.__init__` stores it. -/
def argsPoolW : AlignerPool :=
  (AlignerPool.init 100 1).add simW "alpha"

/-- The witness aligner: the state produced by
`ToolAligner.init simW 90 1 1 1` followed by `add_tool "tool_one" ["alpha"]`. -/
def toolAlignerW : ToolAligner :=
  { model := simW,
    pools := [("tools", toolsPoolW), ("tool_one#args", argsPoolW)],
    tool_args_lexical_threshold := 100,
    tool_args_semantic_threshold := 1 }

/-- Witness for `toolaligner_align_tool_call_correct` at a concrete aligner
and tool call. -/
theorem toolaligner_align_tool_call_correct_witness :
    dictGet toolAlignerW.pools "tools" = some toolsPoolW ∧
    (toolsPoolW.matchQuery simW "tool_one").1 = .ok (some "tool_one") ∧
    ∃ corrected a1,
      toolAlignerW.align_tool_call { name := "tool_one", args := [("alpha", (5 : Nat))] } =
        .ok (some { name := "tool_one", args := corrected }, a1) ∧
      ∀ q ∈ corrected, ∃ k0, (k0, q.2) ∈ [("alpha", (5 : Nat))] ∧
        argMatchValue simW argsPoolW k0 = .ok (some q.1) := by
  refine ⟨rfl, rfl, ?_⟩
  have h := (toolaligner_align_tool_call_correct toolAlignerW
    { name := "tool_one", args := [("alpha", (5 : Nat))] } toolsPoolW rfl).2
    "tool_one" argsPoolW rfl rfl (by decide)
    (by
      intro k hk e hc
      simp at hk
      subst hk
      rw [show argMatchValue toolAlignerW.model argsPoolW "alpha" =
        .ok (some "alpha") from rfl] at hc
      exact Except.noConfusion hc)
  exact h.2 (by
    intro k hk
    simp at hk
    subst hk
    exact ⟨"alpha", rfl⟩)

/-! ### `src/core/messages.py`, `src/core/chat.py`, `src/chat/chat_ollama.py` -/

/-- The message classes of `messages.py`: `SystemMessage` (role "system"),
`HumanMessage` ("user"), `AIMessage` ("assistant") and `ToolMessage`
("tool", carrying `tool_name`). -/
inductive Message where
  | system (content : String)
  | human (content : String)
  | ai (content : String)
  | tool (tool_name : String) (content : String)
  deriving DecidableEq, Repr

/-- A `Tool` as the chat adapter sees it (`tools.py`): its registered name
and the JSON-schema rendering `tool.schema()` (an opaque string here; the
claims below do not depend on its contents). -/
structure Tool where
  name : String
  schemaStr : String
  deriving DecidableEq, Repr

/-- `BaseChatModel.tool_call_instructon` (`chat.py` lines 90-113),
the protocol preamble literal. -/
def tool_call_instructon : String :=
  "\n# Tool Invocation Protocol\n" ++
  "You have access to the following tools. When the user\x27s request requires using a tool, follow this protocol:\n\n" ++
  "1. **Format:** Output strictly valid JSON\n" ++
  "2. **Structure:** \x7b\"tool_calls\": [\x7b\"name\": \"<class_name>.<tool_name>\", \"args\": <arguments_dict>\x7d]\x7d\n" ++
  "3. **Multiple Tools:** Include multiple tool call objects in the tool_calls array\n" ++
  "4. **Important:** Do NOT include other fields when calling tools - ONLY the tool_calls field\n" ++
  "5. **Tool Name:** Remember that tool name has class prefix\n\n" ++
  "## STRICT FORMATTING EXAMPLES\n\n" ++
  "User: \"What is the weather in Tokyo?\"\nAssistant:\n" ++
  "\x7b\"tool_calls\": [\x7b\"name\": \"Weather.get_weather\", \"args\": \x7b\"location\": \"Tokyo\", \"unit\": \"celsius\"\x7d\x7d]\x7d\n\n" ++
  "User: \"Email John and check the server status.\"\nAssistant:\n" ++
  "\x7b\"tool_calls\": [\x7b\"name\": \"Email.send_email\", \"args\": \x7b\"recipient\": \"john@example.com\", \"body\": \"Hello\"\x7d\x7d, \x7b\"name\": \"Server.check_server\", \"args\": \x7b\"target\": \"localhost\"\x7d\x7d]\x7d\n\n" ++
  "## Available Tools\n        "

/-- `BaseChatModel.create_tool_instruction` (`chat.py` lines 144-158):
the protocol preamble followed by every bound tool's JSON schema. -/
def create_tool_instruction (tools : List Tool) : String :=
  tools.foldl (fun instruction tool => instruction ++ tool.schemaStr ++ "\n")
    tool_call_instructon

/-- One entry of the wire-format message list built by
`ChatOllama.__convert_messages` (`chat_ollama.py` lines 74-81). -/
structure WireMessage where
  role : String
  content : String
  tool_name : Option String
  deriving DecidableEq, Repr

/-- `ChatOllama.__convert_messages`: tool messages become
`{"role": "tool", "content": ..., "tool_name": ...}`, every other message
keeps its role and content. -/
def convert_messages (messages : List Message) : List WireMessage :=
  messages.map fun m =>
    match m with
    | .tool tool_name content => { role := "tool", content := content, tool_name := some tool_name }
    | .system content => { role := "system", content := content, tool_name := none }
    | .human content => { role := "user", content := content, tool_name := none }
    | .ai content => { role := "assistant", content := content, tool_name := none }

/-- The fields of `ChatOllama` (`chat_ollama.py` lines 10-21) that affect
`invoke`: the model name, the thinking flag, the induced-tool-call flag and
the bound tool list (`BaseChatModel.__tools`). -/
structure ChatOllama where
  model : String
  thinking : Bool
  induced_tool : Bool
  tools : List Tool
  deriving DecidableEq, Repr

/-- The request handed to `ollama.Client.chat` inside `ChatOllama.invoke`:
`tools = none` models a call without the native `tools=` parameter. -/
structure OllamaRequest where
  model : String
  messages : List WireMessage
  tools : Option (List Tool)
  think : Bool
  deriving DecidableEq, Repr

/-- `ChatOllama.invoke` (`chat_ollama.py` lines 23-57), modeled up to the
`self.__client.chat(...)` call: the value is the request sent to the client
together with the caller's `messages` list after the call (in induced mode
line 29 appends a `SystemMessage` to that list — note: after `converted`
has already been computed on line 24). -/
def ChatOllama.invoke (c : ChatOllama) (messages : List Message) :
    OllamaRequest × List Message :=
  let converted := convert_messages messages
  if c.induced_tool then
    ({ model := c.model, messages := converted, tools := none, think := c.thinking },
     messages ++ [Message.system (create_tool_instruction c.tools)])
  else
    ({ model := c.model, messages := converted, tools := some c.tools, think := c.thinking },
     messages)

/-- C5, evaluated at a failing input (code bug): in induced tool-call mode
`invoke` indeed sends no native tools parameter, but the messages sent to
the model do NOT include the synthetic system message: the instruction is
appended to the caller's message list only after that list was converted
into the request payload, so the request contains no system message at
all. -/
theorem chatollama_induced_invoke_drops_instruction :
    (let c : ChatOllama := { model := "m", thinking := false, induced_tool := true,
                             tools := [{ name := "T.t", schemaStr := "SCHEMA_T" }] }
     let msgs : List Message := [Message.human "hi"]
     (c.invoke msgs).1.tools = none ∧
     (c.invoke msgs).1.messages = [{ role := "user", content := "hi", tool_name := none }] ∧
     (∀ w ∈ (c.invoke msgs).1.messages, w.role ≠ "system") ∧
     (c.invoke msgs).2 =
       [Message.human "hi",
        Message.system (create_tool_instruction [{ name := "T.t", schemaStr := "SCHEMA_T" }])]) := by
  exact ⟨rfl, rfl, by decide, rfl⟩

/-! ### `src/cmd_line/cmd_tools.py`, `src/coding/python_tools.py` -/

/-- `CmdLineOutput` (`cmd_tools.py` lines 7-10). -/
structure CmdLineOutput where
  stdout : String
  stderr : String
  deriving DecidableEq, Repr

/-- The state of a `CmdLineMonitor` (`cmd_tools.py` lines 12-127).  The
background reader/waiter threads mutate this state asynchronously; the
claims below only evaluate the state observed at a call. -/
structure CmdLineMonitor where
  stdout_buf : List String
  stderr_buf : List String
  stdout_ptr : Nat
  stderr_ptr : Nat
  process_finished : Bool
  process_code : Int
  deriving DecidableEq, Repr

/-- `CmdLineMonitor.__init__` (lines 17-24): the state of a freshly spawned
monitor, as `CmdLineRunner.monitor_cmd` creates it (line 175). -/
def CmdLineMonitor.init : CmdLineMonitor :=
  { stdout_buf := [], stderr_buf := [], stdout_ptr := 0, stderr_ptr := 0,
    process_finished := false, process_code := -1 }

/-- `CmdLineMonitor.is_running` (lines 101-108): the source returns
`self._process_finished` — although its docstring promises "True if the
process is running, False otherwise". -/
def CmdLineMonitor.is_running (m : CmdLineMonitor) : Bool :=
  m.process_finished

/-- `CmdLineMonitor.set_finished` (lines 110-118), called by the waiter
thread when the operating-system process exits. -/
def CmdLineMonitor.set_finished (m : CmdLineMonitor) (code : Int) : CmdLineMonitor :=
  { m with process_finished := true, process_code := code }

/-- The fields of `PythonWorkSpace` (`python_tools.py` lines 9-19) that
`run_script` reads, plus a ghost counter of spawned background processes
(incremented exactly when the model performs the `monitor_cmd` spawn of
line 85; it does not influence any behavior). -/
structure PythonWorkSpace where
  source_dir : String
  python_path : String
  monitor : Option CmdLineMonitor
  spawned_processes : Nat
  deriving DecidableEq, Repr

/-- `PythonWorkSpace.run_script` (`python_tools.py` lines 66-89).
`execCmd` models `CmdLineRunner.execute_cmd` (a blocking subprocess run)
and `spawned` the fresh monitor that `CmdLineRunner.monitor_cmd` would
return for this spawn.  Returns the tool's string result and the workspace
state after the call. -/
def PythonWorkSpace.run_script (ws : PythonWorkSpace)
    (execCmd : String → List String → CmdLineOutput)
    (spawned : CmdLineMonitor)
    (script_path : String) (args : List String) (run_background : Bool) :
    String × PythonWorkSpace :=
  let path := ws.source_dir ++ "/" ++ script_path
  if run_background then
    match ws.monitor with
    | some m =>
      if m.is_running then
        ("Error: A process is already running in background. Please stop it or wait for it to finish.", ws)
      else
        ("Process started in background mode.",
         { ws with monitor := some spawned, spawned_processes := ws.spawned_processes + 1 })
    | none =>
      ("Process started in background mode.",
       { ws with monitor := some spawned, spawned_processes := ws.spawned_processes + 1 })
  else
    let output := execCmd ws.python_path ([path] ++ args)
    ("Stdout: " ++ output.stdout ++ "\nStderr: " ++ output.stderr, ws)

/-- C4, evaluated at a failing input (code bug): `is_running` returns
`_process_finished`, so while a previously started background process is
STILL RUNNING (`process_finished = false`) the guard does not trigger and
`run_script` starts a second background process; and conversely, once the
old process has finished, starting a new one is refused with the error
message. -/
theorem run_script_background_guard_inverted :
    (let running : CmdLineMonitor := CmdLineMonitor.init
     let ws : PythonWorkSpace :=
       { source_dir := "/w", python_path := "python", monitor := some running,
         spawned_processes := 1 }
     running.is_running = false ∧
     (ws.run_script (fun _ _ => ⟨"", ""⟩) CmdLineMonitor.init "s.py" [] true).1 =
       "Process started in background mode." ∧
     (ws.run_script (fun _ _ => ⟨"", ""⟩) CmdLineMonitor.init "s.py" [] true).2.spawned_processes = 2) ∧
    (let finished : CmdLineMonitor := CmdLineMonitor.init.set_finished 0
     let ws : PythonWorkSpace :=
       { source_dir := "/w", python_path := "python", monitor := some finished,
         spawned_processes := 1 }
     finished.is_running = true ∧
     (ws.run_script (fun _ _ => ⟨"", ""⟩) CmdLineMonitor.init "s.py" [] true).1 =
       "Error: A process is already running in background. Please stop it or wait for it to finish." ∧
     (ws.run_script (fun _ _ => ⟨"", ""⟩) CmdLineMonitor.init "s.py" [] true).2 = ws) := by
  exact ⟨⟨rfl, rfl, rfl⟩, ⟨rfl, rfl, rfl⟩⟩

/-! ### `src/core/fsm.py` -/

/-- `StateType` (`src/core/enums.py`). -/
inductive StateType where
  | STABLE | TRANSIENT | ERROR | END | START
  deriving DecidableEq, Repr

/-- `StateExecutionResult` (`fsm.py` lines 25-28). -/
structure StateExecutionResult where
  next_state : String
  output : String
  deriving DecidableEq, Repr

/-- `Transition` (`fsm.py` lines 16-23). -/
structure Transition where
  source : String
  target : String
  constraint : String
  deriving DecidableEq, Repr

/-- Which `State` class a state object is.  A plain `State` carries the
abstract body of `State.execute` (lines 81-89: the agent call followed by
the verifier call, both external LLM-driven code; `.error e` models an
exception raised there with text `e`). -/
inductive StateKind where
  | start
  | end_
  | plain (body : String → Except String StateExecutionResult)

/-- The fields of a `State` object (lines 58-75) that the FSM driver reads
and writes: name, type, subscriptions, whether `agent` / `verifier` are
set, the retry budget with its mutable counter, and for `StartState` the
`target_state` set by `compile_transitions`. -/
structure StateData where
  name : String
  type : StateType
  subscriptions : List String
  has_agent : Bool
  has_verifier : Bool
  max_retries : Nat
  retries_counter : Nat
  target_state : Option String
  kind : StateKind

/-- `State.__init__` (lines 60-75): `retries_counter` starts at
`max_retries`. -/
def State.make (name : String) (type : StateType) (subscriptions : List String)
    (has_agent has_verifier : Bool) (max_retries : Nat)
    (body : String → Except String StateExecutionResult) : StateData :=
  { name := name, type := type, subscriptions := subscriptions,
    has_agent := has_agent, has_verifier := has_verifier,
    max_retries := max_retries, retries_counter := max_retries,
    target_state := none, kind := .plain body }

/-- `StartState.__init__` (lines 112-115): type STABLE, no agent. -/
def StartState.make (name : String) : StateData :=
  { name := name, type := .STABLE, subscriptions := [], has_agent := false,
    has_verifier := false, max_retries := 3, retries_counter := 3,
    target_state := none, kind := .start }

/-- `EndState.__init__` (lines 129-131): type END, no agent. -/
def EndState.make (name : String) : StateData :=
  { name := name, type := .END, subscriptions := [], has_agent := false,
    has_verifier := false, max_retries := 3, retries_counter := 3,
    target_state := none, kind := .end_ }

/-- The `execute` dispatch the driver calls: `StartState.execute`
(lines 122-126), `EndState.execute` (lines 133-134) and `State.execute`
(lines 77-89, whose `if not self.agent` guard raises before the abstract
agent/verifier body runs). -/
def StateData.execute (s : StateData) (context : String) :
    Except String StateExecutionResult :=
  match s.kind with
  | .start =>
    match s.target_state with
    | none => .error "StartState not compiled or no transition defined."
    | some t => .ok { next_state := t, output := context }
  | .end_ => .ok { next_state := "END", output := context }
  | .plain body =>
    if s.has_agent then body context else .error "Agent not initialized"

/-- `State.reset_retries` (lines 91-92). -/
def StateData.reset_retries (s : StateData) : StateData :=
  { s with retries_counter := s.max_retries }

/-- `State.retry` (lines 94-98): consume one retry when available; returns
the Python return value together with the mutated state. -/
def StateData.retry (s : StateData) : Bool × StateData :=
  if s.retries_counter > 0 then
    (true, { s with retries_counter := s.retries_counter - 1 })
  else (false, s)

/-- `State.compile_transitions` (lines 100-107) and its `StartState`
override (lines 117-120); `EndState` inherits the base implementation.
The verifier system prompt assembled by the base implementation does not
affect the driver and is not modeled beyond the missing-verifier raise. -/
def StateData.compile_transitions (s : StateData) (ts : List Transition) :
    Except String StateData :=
  match s.kind with
  | .start =>
    match ts with
    | [t] => .ok { s with target_state := some t.target }
    | _ => .error ("StartState " ++ s.name ++ " must have exactly one transition.")
  | _ =>
    if s.has_verifier then .ok s else .error "Verifier not initialized"

/-- `FSM` (lines 136-148): the error state handed to the constructor, the
state dictionary, the per-source transition lists and the initial-state
name set by `compile`.  The ledgers and the unused `retry_counters` /
`captured_contexts` dictionaries are not modeled. -/
structure FSM where
  error_state : StateData
  states : List (String × StateData)
  transitions : List (String × List Transition)
  initial_state : Option String

/-- `FSM.add_state` (lines 154-155). -/
def FSM.add_state (f : FSM) (s : StateData) : FSM :=
  { f with states := dictSet f.states s.name s }

/-- `FSM.add_transition` (lines 157-166): both endpoints must exist. -/
def FSM.add_transition (f : FSM) (t : Transition) : Except String FSM :=
  if (dictGet f.states t.source).isNone then
    .error ("Source state " ++ t.source ++ " does not exist!")
  else if (dictGet f.states t.target).isNone then
    .error ("Target state " ++ t.target ++ " does not exist!")
  else
    match dictGet f.transitions t.source with
    | none => .ok { f with transitions := dictSet f.transitions t.source [t] }
    | some ts => .ok { f with transitions := dictSet f.transitions t.source (ts ++ [t]) }

/-- `StartState` test used by `compile`. -/
def StateData.isStartState (s : StateData) : Bool :=
  match s.kind with | .start => true | _ => false

/-- `EndState` test used by `compile`. -/
def StateData.isEndState (s : StateData) : Bool :=
  match s.kind with | .end_ => true | _ => false

/-- `FSM.compile` (lines 172-225): exactly one `StartState`, at least one
`EndState`, an outgoing transition from the start, a transition into some
end state; then, per state in insertion order, `compile_transitions` for
states with outgoing transitions followed by subscription validation for
states with an agent (socket attachment only feeds prompt construction and
is not modeled; a subscription to an agent-less state is only a warning). -/
def FSM.compile (f : FSM) : Except String FSM := do
  let values := f.states.map Prod.snd
  let start_states := values.filter StateData.isStartState
  let end_states := values.filter StateData.isEndState
  match start_states with
  | [s0] =>
    if end_states.length = 0 then
      throw "FSM must have at least one EndState"
    else
      let initial_state := s0.name
      if (dictGet f.transitions initial_state).isNone then
        throw ("StartState " ++ initial_state ++ " must have an outgoing transition")
      else
        let end_state_names := end_states.map StateData.name
        let reachable_end := f.transitions.any fun p =>
          p.2.any fun t => end_state_names.contains t.target
        if !reachable_end then
          throw "No transition points to an EndState"
        else do
          let states1 ← f.states.foldlM
            (fun (acc : List (String × StateData)) p => do
              let st ←
                match dictGet f.transitions p.1 with
                | some ts => p.2.compile_transitions ts
                | none => pure p.2
              if st.has_agent then
                for sub in st.subscriptions do
                  if sub = "__initial_context__" then
                    pure ()
                  else if (dictGet f.states sub).isNone then
                    throw ("State " ++ p.1 ++ " subscribes to unknown state " ++ sub)
                  else
                    pure ()
              pure (acc ++ [(p.1, st)]))
            []
          pure { f with states := states1, initial_state := some initial_state }
  | _ =>
    throw ("FSM must have exactly one StartState, found " ++
      toString start_states.length)

/-- A reference to the driver's `current_state` object: either the error
state handed to the FSM constructor, or an entry of the state dictionary.
(The modeling assumes the error-state object is distinct from the
registered states, as the spec's data-model invariant requires: "The Error
state is singleton and not in the declared transition table".) -/
inductive StateRef where
  | err
  | named (name : String)
  deriving DecidableEq, Repr

/-- The mutable state of one `FSM.run` invocation (lines 266-271): the
state dictionary and error state carry the in-place mutated `State`
objects; `output` is the Python local that stays unbound (`none`) until the
first execution; `last_success_output` is a verification ghost recording
the output of the most recent non-raising execution — it never influences
the driver. -/
structure RunState where
  states : List (String × StateData)
  error_state : StateData
  current : StateRef
  current_input : String
  last_stable_state_name : String
  output : Option String
  last_success_output : Option String

/-- Resolve the `current_state` reference to the state object. -/
def RunState.resolve (s : RunState) : Option StateData :=
  match s.current with
  | .err => some s.error_state
  | .named n => dictGet s.states n

/-- `current_state.reset_retries()` (line 304) applied through the current
reference. -/
def RunState.resetCurrentRetries (s : RunState) : RunState :=
  match s.current with
  | .err => { s with error_state := s.error_state.reset_retries }
  | .named n => { s with states := dictModify s.states n StateData.reset_retries }

/-- Python `str.strip()` as used on the decided next-state name
(fsm.py line 231): drop whitespace from both ends.  (Implemented directly
over the character list so that concrete runs reduce in the kernel;
`String.trim` is defined by well-founded recursion and does not.) -/
def pyStrip (s : String) : String :=
  ⟨((s.data.dropWhile Char.isWhitespace).reverse.dropWhile Char.isWhitespace).reverse⟩

/-- `FSM.transition` (lines 227-249): strip the decided next-state name,
search the declared transitions of the current state for a matching target;
on a match advance to `self.states[transition.target]` (the dictionary
lookup's `KeyError` — impossible for FSMs built through `add_transition` —
is the `.error` case); on a mismatch move to the error state.  Returns the
new current reference with the new current input (`result.output`). -/
def FSM.transitionStep (transitions : List (String × List Transition))
    (states : List (String × StateData)) (current_name : String)
    (result : StateExecutionResult) : Except String (StateRef × String) :=
  let current_input := result.output
  let next := pyStrip result.next_state
  let ts := (dictGet transitions current_name).getD []
  match ts.find? (fun t => t.target == next) with
  | some t =>
    if (dictGet states t.target).isSome then .ok (.named t.target, current_input)
    else .error ("KeyError: " ++ t.target)
  | none => .ok (.err, current_input)

/-- The outcome of one iteration of the driver loop. -/
inductive StepResult where
  | next (s : RunState)
  | haltEnd (final_output : String)
  | haltFailed
  | uncaught (msg : String)

/-- The Error-state branch of the driver (lines 284-299): consult
`self.states[last_stable_state_name]`, consume a retry if available and
recover to the last stable state, otherwise terminate with `FAILED`.
(`if target_state.retry() > 0` compares the returned Bool with `0`; in
Python `True > 0` is `True`, so the branch is taken exactly when a retry
was consumed.) -/
def recoverOrFail (s : RunState) : StepResult :=
  match dictGet s.states s.last_stable_state_name with
  | none => .uncaught ("KeyError: " ++ s.last_stable_state_name)
  | some target_state =>
    match target_state.retry with
    | (true, target1) =>
      .next { s with states := dictSet s.states s.last_stable_state_name target1,
                     current := .named s.last_stable_state_name }
    | (false, _) => .haltFailed

/-- The stable-state bookkeeping of the driver (lines 302-305): on entering
a stable state different from the recorded last stable one, reset its
retries; record it as the last stable state. -/
def stableBookkeeping (s : RunState) (current_state : StateData) : RunState :=
  if current_state.type = .STABLE then
    let s1 := if current_state.name ≠ s.last_stable_state_name
      then s.resetCurrentRetries else s
    { s1 with last_stable_state_name := current_state.name }
  else s

/-- The execute-and-transition part of one driver iteration (lines
308-329): run `current_state.execute`; a raised exception is caught and
replaced by `StateExecutionResult("ERROR", str(e))` with `output = str(e)`;
then resolve the transition. -/
def execAndRoute (transitions : List (String × List Transition))
    (s : RunState) (current_state : StateData) : StepResult :=
  let s1 := stableBookkeeping s current_state
  match current_state.execute s1.current_input with
  | .ok r =>
    let s2 := { s1 with output := some r.output, last_success_output := some r.output }
    match FSM.transitionStep transitions s2.states current_state.name r with
    | .error e => .uncaught e
    | .ok (ref, input) => .next { s2 with current := ref, current_input := input }
  | .error e =>
    let result : StateExecutionResult := { next_state := "ERROR", output := e }
    let s2 := { s1 with output := some e }
    match FSM.transitionStep transitions s2.states current_state.name result with
    | .error e2 => .uncaught e2
    | .ok (ref, input) => .next { s2 with current := ref, current_input := input }

/-- One iteration of the `for` loop of `FSM.run` (lines 273-329). -/
def driverStep (transitions : List (String × List Transition)) (s : RunState) :
    StepResult :=
  match s.resolve with
  | none => .uncaught "KeyError: current state"
  | some current_state =>
    if current_state.type = .END then
      match s.output with
      | some o => .haltEnd o
      | none => .uncaught "NameError: name output is not defined"
    else if current_state.type = .ERROR then
      recoverOrFail s
    else
      execAndRoute transitions s current_state

/-- How the bounded driver loop ended. -/
inductive LoopResult where
  | endReached (final_output : String)
  | failed
  | outOfSteps
  | uncaught (msg : String)
  deriving DecidableEq, Repr

/-- The `for _ in range(max_steps)` loop of `FSM.run`, returning how it
ended together with the driver state at that point;
exhausting `max_steps` leaves `final_output` at its initial `""`. -/
def driverLoop (transitions : List (String × List Transition)) :
    Nat → RunState → LoopResult × RunState
  | 0, s => (.outOfSteps, s)
  | fuel + 1, s =>
    match driverStep transitions s with
    | .next s1 => driverLoop transitions fuel s1
    | .haltEnd o => (.endReached o, s)
    | .haltFailed => (.failed, s)
    | .uncaught e => (.uncaught e, s)

/-- The prologue of `FSM.run` (lines 251-269): seed the initial-context
ledger (it only feeds agent sockets and is not modeled), `compile`, and
build the driver state: `current_state = self.states[self.initial_state]`
(a `KeyError` on a missing entry), `last_stable_state_name =
current_state.name`. -/
def FSM.initRun (f : FSM) (initial_request : String) :
    Except String (FSM × RunState) := do
  let compiled ← f.compile
  match compiled.initial_state with
  | none => throw "Initial state could not be determined during compilation."
  | some init =>
    match dictGet compiled.states init with
    | none => throw ("KeyError: " ++ init)
    | some s0 =>
      pure (compiled,
        { states := compiled.states, error_state := compiled.error_state,
          current := .named init, current_input := initial_request,
          last_stable_state_name := s0.name, output := none,
          last_success_output := none })

/-- `FSM.run` (lines 251-331): configuration errors from `compile` (and the
unreachable `KeyError`/`NameError` paths) propagate as `.error`; an End
state returns the `output` local; exhausted recovery returns `"FAILED"`;
running out of `max_steps` returns the initial `final_output = ""`. -/
def FSM.run (f : FSM) (initial_request : String) (max_steps : Nat) :
    Except String String :=
  match f.initRun initial_request with
  | .error e => .error e
  | .ok (compiled, st0) =>
    match driverLoop compiled.transitions max_steps st0 with
    | (.endReached o, _) => .ok o
    | (.failed, _) => .ok "FAILED"
    | (.outOfSteps, _) => .ok ""
    | (.uncaught e, _) => .error e

/-- `dictGet` hits are members of the dictionary. -/
theorem dictGet_mem {α : Type u} {d : List (String × α)} {k : String} {v : α}
    (h : dictGet d k = some v) : (k, v) ∈ d := by
  induction d with
  | nil => simp [dictGet] at h
  | cons hd tl ih =>
    obtain ⟨k0, v0⟩ := hd
    by_cases h0 : k0 = k
    · subst h0
      simp [dictGet] at h
      simp [h]
    · simp [dictGet, h0] at h
      simp [ih h]

/-- Members of `dictModify d k f` are members of `d` up to `f` on the
value. -/
theorem mem_dictModify {α : Type u} {d : List (String × α)} {k : String}
    {f : α → α} {p : String × α} (hp : p ∈ dictModify d k f) :
    ∃ v, (p.1, v) ∈ d ∧ (p.2 = v ∨ p.2 = f v) := by
  induction d with
  | nil => simp [dictModify] at hp
  | cons hd tl ih =>
    obtain ⟨k0, v0⟩ := hd
    by_cases h0 : k0 = k
    · subst h0
      simp [dictModify] at hp
      rcases hp with hp | hp
      · subst hp
        exact ⟨v0, by simp, Or.inr rfl⟩
      · exact ⟨p.2, by simp [hp], Or.inl rfl⟩
    · simp [dictModify, h0] at hp
      rcases hp with hp | hp
      · subst hp
        exact ⟨v0, by simp, Or.inl rfl⟩
      · rcases ih hp with ⟨v, hv, hor⟩
        exact ⟨v, by simp [hv], hor⟩

/-- C3: whenever the driver is in the Error state, it consults the last
stable state's retry budget: a positive budget is consumed (decremented)
and the current state is set back to the last stable state; an exhausted
budget terminates the run immediately with "FAILED".  With
`max_retries = 0` on the last stable state the budget is always exhausted
(the driver keeps every counter bounded by its `max_retries`, fourth
conjunct), so any entry to the Error state terminates the run as "FAILED"
(fifth conjunct ties the loop outcome to the value `run` returns). -/
theorem fsm_error_state_recovery (transitions : List (String × List Transition))
    (s : RunState) (cs target : StateData)
    (hres : s.resolve = some cs) (htype : cs.type = .ERROR)
    (htarget : dictGet s.states s.last_stable_state_name = some target) :
    (0 < target.retries_counter →
      driverStep transitions s = .next
        { s with states := dictSet s.states s.last_stable_state_name
                   { target with retries_counter := target.retries_counter - 1 },
                 current := .named s.last_stable_state_name }) ∧
    (target.retries_counter = 0 →
      driverStep transitions s = .haltFailed) ∧
    (target.retries_counter = 0 →
      ∀ fuel, driverLoop transitions (fuel + 1) s = (.failed, s)) ∧
    (∀ (t : RunState) (t1 : RunState),
      (∀ p ∈ t.states, p.2.retries_counter ≤ p.2.max_retries) →
      driverStep transitions t = .next t1 →
      ∀ p ∈ t1.states, p.2.retries_counter ≤ p.2.max_retries) ∧
    (target.max_retries = 0 → target.retries_counter ≤ target.max_retries →
      ∀ (f : FSM) (req : String) (c : FSM) (st0 : RunState) (n : Nat) (s1 : RunState),
        f.initRun req = .ok (c, st0) →
        driverLoop c.transitions n st0 = (.failed, s1) →
        f.run req n = .ok "FAILED") := by
  have hstep : driverStep transitions s = recoverOrFail s := by
    unfold driverStep
    rw [hres]
    simp [htype]
  refine ⟨?_, ?_, ?_, ?_, ?_⟩
  · intro hpos
    rw [hstep]
    unfold recoverOrFail
    rw [htarget]
    unfold StateData.retry
    simp [hpos]
  · intro hzero
    rw [hstep]
    unfold recoverOrFail
    rw [htarget]
    unfold StateData.retry
    simp [hzero]
  · intro hzero fuel
    have h2 : driverStep transitions s = .haltFailed := by
      rw [hstep]
      unfold recoverOrFail
      rw [htarget]
      unfold StateData.retry
      simp [hzero]
    simp [driverLoop, h2]
  · intro t t1 hbound hnext p hp
    revert hnext
    unfold driverStep
    cases hrt : t.resolve with
    | none => intro hnext; exact absurd hnext (by simp)
    | some cst =>
      by_cases hend : cst.type = .END
      · simp [hend]
        cases t.output <;> simp
      · by_cases herr : cst.type = .ERROR
        · simp [hend, herr]
          unfold recoverOrFail
          cases hlt : dictGet t.states t.last_stable_state_name with
          | none => simp
          | some tgt =>
            unfold StateData.retry
            by_cases hz : tgt.retries_counter > 0
            · simp [hz]
              intro ht1
              rw [← ht1] at hp
              simp at hp
              rcases mem_dictSet hp with hpe | hpe
              · have hb := hbound _ (dictGet_mem hlt)
                subst hpe
                simp at hb ⊢
                omega
              · exact hbound p hpe
            · simp [hz]
        · simp [hend, herr]
          unfold execAndRoute
          cases hx : cst.execute (stableBookkeeping t cst).current_input with
          | ok r =>
            cases htr : FSM.transitionStep transitions
                (stableBookkeeping t cst).states cst.name r with
            | error e => simp [hx, htr]
            | ok ri =>
              simp [hx, htr]
              intro ht1
              rw [← ht1] at hp
              simp at hp
              have hsb : ∀ q ∈ (stableBookkeeping t cst).states,
                  q.2.retries_counter ≤ q.2.max_retries := by
                unfold stableBookkeeping RunState.resetCurrentRetries
                intro q hq
                by_cases hst : cst.type = .STABLE
                · simp [hst] at hq
                  by_cases hnm : cst.name = t.last_stable_state_name
                  · simp [hnm] at hq
                    exact hbound q hq
                  · simp [hnm] at hq
                    cases hcur : t.current with
                    | err =>
                      rw [hcur] at hq
                      simp at hq
                      exact hbound q hq
                    | named nm =>
                      rw [hcur] at hq
                      simp at hq
                      rcases mem_dictModify hq with ⟨v, hv, hor⟩
                      have hb := hbound (q.1, v) hv
                      rcases hor with hq2 | hq2 <;>
                        simp [hq2, StateData.reset_retries] at hb ⊢ <;>
                        try exact hb
                · simp [hst] at hq
                  exact hbound q hq
              exact hsb p hp
          | error e =>
            cases htr : FSM.transitionStep transitions
                (stableBookkeeping t cst).states cst.name
                { next_state := "ERROR", output := e } with
            | error e2 => simp [hx, htr]
            | ok ri =>
              simp [hx, htr]
              intro ht1
              rw [← ht1] at hp
              simp at hp
              have hsb : ∀ q ∈ (stableBookkeeping t cst).states,
                  q.2.retries_counter ≤ q.2.max_retries := by
                unfold stableBookkeeping RunState.resetCurrentRetries
                intro q hq
                by_cases hst : cst.type = .STABLE
                · simp [hst] at hq
                  by_cases hnm : cst.name = t.last_stable_state_name
                  · simp [hnm] at hq
                    exact hbound q hq
                  · simp [hnm] at hq
                    cases hcur : t.current with
                    | err =>
                      rw [hcur] at hq
                      simp at hq
                      exact hbound q hq
                    | named nm =>
                      rw [hcur] at hq
                      simp at hq
                      rcases mem_dictModify hq with ⟨v, hv, hor⟩
                      have hb := hbound (q.1, v) hv
                      rcases hor with hq2 | hq2 <;>
                        simp [hq2, StateData.reset_retries] at hb ⊢ <;>
                        try exact hb
                · simp [hst] at hq
                  exact hbound q hq
              exact hsb p hp
  · intro _ _ f req c st0 n s1 hinit hloop
    unfold FSM.run
    rw [hinit]
    simp [hloop]

/-- A concrete Error-typed state (as handed to the `FSM` constructor). -/
def errStateW : StateData :=
  State.make "Err" .ERROR [] false false 3 (fun ctx => .ok ⟨"", ctx⟩)

/-- A stable state with `max_retries = 0` (budget already exhausted). -/
def c3StateZero : StateData :=
  State.make "A" .STABLE [] true true 0 (fun ctx => .ok ⟨"", ctx⟩)

/-- A driver state sitting in the Error state whose last stable state is
`c3StateZero`. -/
def c3RunZero : RunState :=
  { states := [("A", c3StateZero)], error_state := errStateW, current := .err,
    current_input := "x", last_stable_state_name := "A", output := some "y",
    last_success_output := some "y" }

/-- Like `c3StateZero` but with one retry left. -/
def c3StateOne : StateData :=
  State.make "A" .STABLE [] true true 1 (fun ctx => .ok ⟨"", ctx⟩)

/-- Like `c3RunZero` but with `c3StateOne` as the last stable state. -/
def c3RunOne : RunState :=
  { c3RunZero with states := [("A", c3StateOne)] }

/-- Witness for `fsm_error_state_recovery` at concrete driver states: an
exhausted budget halts with FAILED immediately, a positive budget is
consumed and control returns to the last stable state. -/
theorem fsm_error_state_recovery_witness :
    driverStep [] c3RunZero = .haltFailed ∧
    driverLoop [] 5 c3RunZero = (.failed, c3RunZero) ∧
    driverStep [] c3RunOne = .next
      { c3RunOne with
        states := dictSet c3RunOne.states "A"
          { c3StateOne with retries_counter := c3StateOne.retries_counter - 1 },
        current := .named "A" } := by
  have h0 := fsm_error_state_recovery [] c3RunZero errStateW c3StateZero rfl rfl rfl
  have h1 := fsm_error_state_recovery [] c3RunOne errStateW c3StateOne rfl rfl rfl
  exact ⟨h0.2.1 rfl, h0.2.2.1 rfl 4, h1.1 (by decide)⟩

/-- The stable-state bookkeeping never changes the current input. -/
theorem stableBookkeeping_current_input (s : RunState) (c : StateData) :
    (stableBookkeeping s c).current_input = s.current_input := by
  unfold stableBookkeeping RunState.resetCurrentRetries
  by_cases h : c.type = .STABLE
  · by_cases h2 : c.name ≠ s.last_stable_state_name
    · cases hc : s.current <;> simp [h, h2, hc]
    · simp [h, h2]
  · simp [h]

/-- C2 (amended): a verifier decision (trimmed of whitespace) that matches
no declared transition from the current state routes to the Error state
without raising; any exception raised while executing a state is caught by
the driver, the exception's message becomes the new current input, and —
provided no declared transition from the current state targets a state
named "ERROR" (such a transition would intercept the `"ERROR"` sentinel the
driver substitutes for the decision) — the driver likewise routes to the
Error state; the step continues normally, so no such error escapes `run`. -/
theorem fsm_transition_miss_and_exception_routing
    (transitions : List (String × List Transition))
    (states : List (String × StateData)) (current_name : String)
    (r : StateExecutionResult) (s : RunState) (cs : StateData) (e : String) :
    ((∀ ts, dictGet transitions current_name = some ts →
        ∀ t ∈ ts, t.target ≠ pyStrip r.next_state) →
      FSM.transitionStep transitions states current_name r = .ok (.err, r.output)) ∧
    (s.resolve = some cs → cs.type ≠ .END → cs.type ≠ .ERROR →
      cs.execute s.current_input = .error e →
      (∀ ts, dictGet transitions cs.name = some ts → ∀ t ∈ ts, t.target ≠ "ERROR") →
      ∃ s1, driverStep transitions s = .next s1 ∧
        s1.current = .err ∧ s1.current_input = e ∧ s1.output = some e) := by
  constructor
  · intro hno
    unfold FSM.transitionStep
    cases hg : dictGet transitions current_name with
    | none => simp [hg]
    | some ts =>
      have hf : ts.find? (fun t => t.target == pyStrip r.next_state) = none := by
        apply List.find?_eq_none.mpr
        intro t ht
        simp
        exact hno ts hg t ht
      simp [hg, hf]
  · intro hres hnotend hnoterr hexec hno
    have htrim : pyStrip "ERROR" = "ERROR" := by decide
    have hne : FSM.transitionStep transitions (stableBookkeeping s cs).states cs.name
        { next_state := "ERROR", output := e } = .ok (.err, e) := by
      unfold FSM.transitionStep
      cases hg : dictGet transitions cs.name with
      | none => simp [hg]
      | some ts =>
        have hf : ts.find? (fun t => t.target == pyStrip "ERROR") = none := by
          apply List.find?_eq_none.mpr
          intro t ht
          simp [htrim]
          exact hno ts hg t ht
        simp [hg, hf]
    have hdisp : driverStep transitions s = execAndRoute transitions s cs := by
      unfold driverStep
      rw [hres]
      simp [hnotend, hnoterr]
    refine ⟨{ stableBookkeeping s cs with
        output := some e, current := .err, current_input := e }, ?_, rfl, rfl, rfl⟩
    rw [hdisp]
    simp only [execAndRoute]
    rw [stableBookkeeping_current_input, hexec]
    simp [hne]

/-- The FSM used as a counterexample to C2 as frozen: a regular STABLE
state literally named "ERROR" with a declared transition into it. -/
def fsmC2cx : FSM :=
  { error_state := errStateW,
    states := [("S0", StartState.make "S0"),
               ("A", State.make "A" .TRANSIENT [] true true 3 (fun _ => .error "boom")),
               ("ERROR", State.make "ERROR" .STABLE [] true true 3
                 (fun ctx => .ok ⟨"E", ctx⟩)),
               ("E", EndState.make "E")],
    transitions := [("S0", [⟨"S0", "A", "go"⟩]),
                    ("A", [⟨"A", "ERROR", "on failure"⟩]),
                    ("ERROR", [⟨"ERROR", "E", "done"⟩])],
    initial_state := none }

/-- Counterexample to C2 as stated: in `fsmC2cx`, the exception raised by
state `A` is routed to the regular STABLE state named "ERROR" (the declared
transition target), not to the Error state: after two steps the current
state is the dictionary entry "ERROR", which is STABLE, and not the error
state.  The exception message does become the current input. -/
theorem fsm_exception_to_named_state_counterexample :
    ∃ c st0, fsmC2cx.initRun "hello" = .ok (c, st0) ∧
      (driverLoop c.transitions 2 st0).2.current = .named "ERROR" ∧
      (driverLoop c.transitions 2 st0).2.current ≠ .err ∧
      (driverLoop c.transitions 2 st0).2.current_input = "boom" ∧
      ∃ cs, (driverLoop c.transitions 2 st0).2.resolve = some cs ∧
        cs.type = .STABLE ∧ cs.type ≠ .ERROR := by
  refine ⟨_, _, rfl, rfl, by decide, rfl, _, rfl, rfl, by decide⟩

/-- Fixture states for the C2 witness. -/
def c2wStates : List (String × StateData) :=
  [("X", State.make "X" .TRANSIENT [] true true 3 (fun _ => .error "boom")),
   ("Y", EndState.make "Y")]

/-- Fixture transitions for the C2 witness. -/
def c2wTransitions : List (String × List Transition) :=
  [("X", [⟨"X", "Y", "c"⟩])]

/-- Fixture driver state for the C2 witness. -/
def c2wRun : RunState :=
  { states := c2wStates, error_state := errStateW, current := .named "X",
    current_input := "in", last_stable_state_name := "X", output := none,
    last_success_output := none }

/-- Witness for `fsm_transition_miss_and_exception_routing` at concrete
inputs. -/
theorem fsm_transition_miss_and_exception_routing_witness :
    FSM.transitionStep c2wTransitions c2wStates "X" ⟨" Z ", "out"⟩ = .ok (.err, "out") ∧
    ∃ s1, driverStep c2wTransitions c2wRun = .next s1 ∧
      s1.current = .err ∧ s1.current_input = "boom" ∧ s1.output = some "boom" := by
  have h := fsm_transition_miss_and_exception_routing c2wTransitions c2wStates "X"
    ⟨" Z ", "out"⟩ c2wRun
    (State.make "X" .TRANSIENT [] true true 3 (fun _ => .error "boom")) "boom"
  refine ⟨h.1 ?_, h.2 rfl (by decide) (by decide) rfl ?_⟩
  · intro ts hts t ht
    simp [c2wTransitions, dictGet] at hts
    subst hts
    simp at ht
    subst ht
    decide
  · intro ts hts t ht
    simp [c2wTransitions, dictGet, State.make] at hts
    subst hts
    simp at ht
    subst ht
    decide

/-- The driver invariant used for C1: whenever the current state is
END-typed, the `output` local equals the last successful output; the last
stable state's entry is STABLE-typed; dictionary entries are keyed by their
state's name; the error state is ERROR-typed. -/
def DriverInv (s : RunState) : Prop :=
  (∀ cs, s.resolve = some cs → cs.type = .END → s.output = s.last_success_output) ∧
  (∀ st, dictGet s.states s.last_stable_state_name = some st → st.type = .STABLE) ∧
  (∀ p ∈ s.states, p.2.name = p.1) ∧
  s.error_state.type = .ERROR

/-- With no declared transition targeting "ERROR", the sentinel result the
driver substitutes for a caught exception always routes to the error
state. -/
theorem transitionStep_error_sentinel (transitions : List (String × List Transition))
    (states : List (String × StateData)) (current_name e : String)
    (hno : ∀ p ∈ transitions, ∀ t ∈ p.2, t.target ≠ "ERROR") :
    FSM.transitionStep transitions states current_name
      { next_state := "ERROR", output := e } = .ok (.err, e) := by
  unfold FSM.transitionStep
  cases hg : dictGet transitions current_name with
  | none => simp [hg]
  | some ts =>
    have hf : ts.find? (fun t => t.target == pyStrip "ERROR") = none := by
      apply List.find?_eq_none.mpr
      intro t ht
      simp [show pyStrip "ERROR" = "ERROR" by decide]
      exact hno (current_name, ts) (dictGet_mem hg) t ht
    simp [hg, hf]

/-- Stable bookkeeping only resets retry counters: names are preserved. -/
theorem stableBookkeeping_names (s : RunState) (cs : StateData)
    (hnames : ∀ p ∈ s.states, p.2.name = p.1) :
    ∀ p ∈ (stableBookkeeping s cs).states, p.2.name = p.1 := by
  intro p hp
  revert hp
  unfold stableBookkeeping RunState.resetCurrentRetries
  by_cases h : cs.type = .STABLE
  · by_cases h2 : cs.name ≠ s.last_stable_state_name
    · cases hc : s.current with
      | err =>
        simp [h, h2, hc]
        exact hnames p
      | named nm =>
        simp [h, h2, hc]
        intro hp
        rcases mem_dictModify hp with ⟨v, hv, hor⟩
        have hn := hnames (p.1, v) hv
        rcases hor with h3 | h3
        · rw [h3]; exact hn
        · rw [h3]; simpa [StateData.reset_retries] using hn
    · simp [h, h2]
      exact hnames p
  · simp [h]
    exact hnames p

/-- Stable bookkeeping does not change the error state's type. -/
theorem stableBookkeeping_error_type (s : RunState) (cs : StateData) :
    (stableBookkeeping s cs).error_state.type = s.error_state.type := by
  unfold stableBookkeeping RunState.resetCurrentRetries
  by_cases h : cs.type = .STABLE
  · by_cases h2 : cs.name ≠ s.last_stable_state_name
    · cases hc : s.current <;> simp [h, h2, hc, StateData.reset_retries]
    · simp [h, h2]
  · simp [h]

/-- After stable bookkeeping, the recorded last stable state is
STABLE-typed. -/
theorem stableBookkeeping_stable (s : RunState) (cs : StateData)
    (hres : s.resolve = some cs)
    (hstable : ∀ st, dictGet s.states s.last_stable_state_name = some st →
      st.type = .STABLE)
    (hnames : ∀ p ∈ s.states, p.2.name = p.1)
    (herr : s.error_state.type = .ERROR) :
    ∀ st, dictGet (stableBookkeeping s cs).states
        (stableBookkeeping s cs).last_stable_state_name = some st →
      st.type = .STABLE := by
  unfold stableBookkeeping RunState.resetCurrentRetries
  by_cases h : cs.type = .STABLE
  · by_cases h2 : cs.name ≠ s.last_stable_state_name
    · cases hc : s.current with
      | err =>
        unfold RunState.resolve at hres
        rw [hc] at hres
        simp at hres
        rw [hres, h] at herr
        exact absurd herr (by simp)
      | named nm =>
        unfold RunState.resolve at hres
        rw [hc] at hres
        simp at hres
        have hname : cs.name = nm := hnames (nm, cs) (dictGet_mem hres)
        simp [h, h2, hc]
        intro st hst
        rw [hname, dictGet_dictModify, if_pos rfl, hres] at hst
        simp at hst
        subst hst
        simp [StateData.reset_retries, h]
    · cases hc : s.current with
      | err =>
        unfold RunState.resolve at hres
        rw [hc] at hres
        simp at hres
        rw [hres, h] at herr
        exact absurd herr (by simp)
      | named nm =>
        unfold RunState.resolve at hres
        rw [hc] at hres
        simp at hres
        have hname : cs.name = nm := hnames (nm, cs) (dictGet_mem hres)
        simp [h, h2]
        intro st hst
        rw [hname, hres] at hst
        simp at hst
        subst hst
        exact h
  · simp [h]
    exact hstable

/-- One driver step preserves `DriverInv`, provided no declared transition
targets a state named "ERROR". -/
theorem driverStep_preserves_DriverInv (transitions : List (String × List Transition))
    (hno : ∀ p ∈ transitions, ∀ t ∈ p.2, t.target ≠ "ERROR")
    (s s1 : RunState) (hinv : DriverInv s)
    (hstep : driverStep transitions s = .next s1) : DriverInv s1 := by
  obtain ⟨hend, hstable, hnames, herr⟩ := hinv
  revert hstep
  unfold driverStep
  cases hres : s.resolve with
  | none => intro h; exact absurd h (by simp)
  | some cs =>
    by_cases hcend : cs.type = .END
    · simp [hcend]
      cases s.output <;> simp
    · by_cases hcerr : cs.type = .ERROR
      · simp [hcend, hcerr]
        unfold recoverOrFail
        cases hlt : dictGet s.states s.last_stable_state_name with
        | none => simp
        | some target =>
          unfold StateData.retry
          by_cases hz : target.retries_counter > 0
          · simp [hz]
            intro h1
            subst h1
            have htt : target.type = .STABLE := hstable target hlt
            refine ⟨?_, ?_, ?_, herr⟩
            · intro cs' hres' hend'
              unfold RunState.resolve at hres'
              simp [dictGet_dictSet_self] at hres'
              rw [← hres'] at hend'
              simp [htt] at hend'
            · intro st hst
              simp [dictGet_dictSet_self] at hst
              rw [← hst]
              exact htt
            · intro p hp
              rcases mem_dictSet hp with hp1 | hp1
              · subst hp1
                simpa using hnames (s.last_stable_state_name, target) (dictGet_mem hlt)
              · exact hnames p hp1
          · simp [hz]
      · have hBnames := stableBookkeeping_names s cs hnames
        have hBerr : (stableBookkeeping s cs).error_state.type = .ERROR := by
          rw [stableBookkeeping_error_type]; exact herr
        have hBstable := stableBookkeeping_stable s cs hres hstable hnames herr
        simp [hcend, hcerr]
        simp only [execAndRoute]
        cases hx : cs.execute (stableBookkeeping s cs).current_input with
        | ok r =>
          cases htr : FSM.transitionStep transitions (stableBookkeeping s cs).states
              cs.name r with
          | error e => simp [htr]
          | ok ri =>
            obtain ⟨ref, input⟩ := ri
            simp [htr]
            intro h1
            subst h1
            exact ⟨fun _ _ _ => rfl, hBstable, hBnames, hBerr⟩
        | error e =>
          cases htr : FSM.transitionStep transitions (stableBookkeeping s cs).states
              cs.name { next_state := "ERROR", output := e } with
          | error e2 => simp [htr]
          | ok ri =>
            obtain ⟨ref, input⟩ := ri
            have hsent := transitionStep_error_sentinel transitions
              (stableBookkeeping s cs).states cs.name e hno
            rw [htr] at hsent
            simp at hsent
            obtain ⟨href, hinput⟩ := hsent
            subst href
            subst hinput
            simp [htr]
            intro h1
            subst h1
            refine ⟨?_, hBstable, hBnames, hBerr⟩
            intro cs' hres' hend'
            unfold RunState.resolve at hres'
            simp at hres'
            rw [← hres'] at hend'
            rw [hBerr] at hend'
            exact absurd hend' (by simp)

/-- Inversion: the driver halts at an End state only with the recorded
`output` as final output. -/
theorem driverStep_haltEnd_inv (transitions : List (String × List Transition))
    (s : RunState) (o : String)
    (h : driverStep transitions s = .haltEnd o) :
    ∃ cs, s.resolve = some cs ∧ cs.type = .END ∧ s.output = some o := by
  revert h
  unfold driverStep
  cases hres : s.resolve with
  | none => simp
  | some cs =>
    by_cases hcend : cs.type = .END
    · simp [hcend]
      cases ho : s.output with
      | none => simp
      | some o2 =>
        simp [hcend]
    · by_cases hcerr : cs.type = .ERROR
      · simp [hcend, hcerr]
        unfold recoverOrFail
        cases dictGet s.states s.last_stable_state_name with
        | none => simp
        | some target =>
          unfold StateData.retry
          by_cases hz : target.retries_counter > 0 <;> simp [hz]
      · simp [hcend, hcerr]
        simp only [execAndRoute]
        cases hx : cs.execute (stableBookkeeping s cs).current_input with
        | ok r =>
          cases htr : FSM.transitionStep transitions (stableBookkeeping s cs).states
              cs.name r with
          | error e => simp [htr]
          | ok ri =>
            obtain ⟨ref, input⟩ := ri
            simp [htr]
        | error e =>
          cases htr : FSM.transitionStep transitions (stableBookkeeping s cs).states
              cs.name { next_state := "ERROR", output := e } with
          | error e2 => simp [htr]
          | ok ri =>
            obtain ⟨ref, input⟩ := ri
            simp [htr]

/-- Along any driver run that maintains `DriverInv`, reaching an End state
returns the output of the most recent successful execution. -/
theorem driverLoop_endReached_lastSuccess (transitions : List (String × List Transition))
    (hno : ∀ p ∈ transitions, ∀ t ∈ p.2, t.target ≠ "ERROR") :
    ∀ (fuel : Nat) (s : RunState), DriverInv s →
      ∀ o s1, driverLoop transitions fuel s = (.endReached o, s1) →
        s1.last_success_output = some o := by
  intro fuel
  induction fuel with
  | zero =>
    intro s _ o s1 h
    simp [driverLoop] at h
  | succ n ih =>
    intro s hinv o s1 h
    unfold driverLoop at h
    cases hstep : driverStep transitions s with
    | next s2 =>
      rw [hstep] at h
      exact ih s2 (driverStep_preserves_DriverInv transitions hno s s2 hinv hstep) o s1 h
    | haltEnd o2 =>
      rw [hstep] at h
      simp at h
      obtain ⟨ho, hs⟩ := h
      rcases driverStep_haltEnd_inv transitions s o2 hstep with ⟨cs, hres, hcend, hout⟩
      have := hinv.1 cs hres hcend
      rw [← hs, ← this, hout, ho]
    | haltFailed =>
      rw [hstep] at h
      simp at h
    | uncaught e =>
      rw [hstep] at h
      simp at h

/-- C1 (amended): configuration errors raised during compilation propagate
to the caller of `run`; when recovery is exhausted the run returns the
literal string "FAILED"; and when an End state is reached the run returns
the driver's `output` local — which is the last SUCCESSFUL state's output
whenever the driver invariant holds initially (ERROR-typed error state,
STABLE-typed initial last-stable entry, name-keyed dictionary) and no
declared transition targets a state named "ERROR".  (Without that
restriction the returned value can be the message of a caught exception;
see the counterexample.) -/
theorem fsm_run_outcomes (f : FSM) (req : String) (n : Nat) :
    (∀ e, f.compile = .error e → f.run req n = .error e) ∧
    (∀ c st0, f.initRun req = .ok (c, st0) →
      (∀ p ∈ c.transitions, ∀ t ∈ p.2, t.target ≠ "ERROR") →
      DriverInv st0 →
      (∀ o s1, driverLoop c.transitions n st0 = (.endReached o, s1) →
        f.run req n = .ok o ∧ s1.last_success_output = some o) ∧
      (∀ s1, driverLoop c.transitions n st0 = (.failed, s1) →
        f.run req n = .ok "FAILED")) := by
  constructor
  · intro e hc
    unfold FSM.run FSM.initRun
    simp [hc, Bind.bind, Except.bind]
  · intro c st0 hinit hno hinv
    constructor
    · intro o s1 hloop
      constructor
      · unfold FSM.run
        rw [hinit]
        simp [hloop]
      · exact driverLoop_endReached_lastSuccess c.transitions hno n st0 hinv o s1 hloop
    · intro s1 hloop
      unfold FSM.run
      rw [hinit]
      simp [hloop]

/-- The FSM used as a counterexample to C1 as frozen: an End state
literally named "ERROR", so the sentinel decision substituted for a caught
exception routes straight into it. -/
def fsmC1cx : FSM :=
  { error_state := errStateW,
    states := [("S0", StartState.make "S0"),
               ("A", State.make "A" .TRANSIENT [] true true 3 (fun _ => .error "boom")),
               ("ERROR", EndState.make "ERROR")],
    transitions := [("S0", [⟨"S0", "A", "go"⟩]),
                    ("A", [⟨"A", "ERROR", "on failure"⟩])],
    initial_state := none }

/-- Counterexample to C1 as stated: `fsmC1cx.run "hello"` reaches an End
state (the loop result is `endReached`), yet returns "boom" — the message
of the exception raised by state `A` — while the last successful state
output was "hello". -/
theorem fsm_run_end_after_exception_counterexample :
    fsmC1cx.run "hello" 1000 = .ok "boom" ∧
    (∃ c st0, fsmC1cx.initRun "hello" = .ok (c, st0) ∧
      (driverLoop c.transitions 1000 st0).1 = .endReached "boom" ∧
      (driverLoop c.transitions 1000 st0).2.last_success_output = some "hello") ∧
    "boom" ≠ "hello" := by
  exact ⟨rfl, ⟨_, _, rfl, rfl, rfl⟩, by decide⟩

/-- A well-behaved FSM for the C1 witness: Start → A → End, where A
succeeds with output "done". -/
def fsmC1w : FSM :=
  { error_state := errStateW,
    states := [("S0", StartState.make "S0"),
               ("A", State.make "A" .STABLE [] true true 3
                 (fun _ => .ok ⟨"E", "done"⟩)),
               ("E", EndState.make "E")],
    transitions := [("S0", [⟨"S0", "A", "go"⟩]),
                    ("A", [⟨"A", "E", "done"⟩])],
    initial_state := none }

/-- The FSM `fsmC1w` as `compile` returns it: the start state's target is
resolved and the initial state recorded. -/
def fsmC1wC : FSM :=
  { error_state := errStateW,
    states := [("S0", { StartState.make "S0" with target_state := some "A" }),
               ("A", State.make "A" .STABLE [] true true 3
                 (fun _ => .ok ⟨"E", "done"⟩)),
               ("E", EndState.make "E")],
    transitions := [("S0", [⟨"S0", "A", "go"⟩]),
                    ("A", [⟨"A", "E", "done"⟩])],
    initial_state := some "S0" }

/-- The initial driver state of `fsmC1w.run "go"`. -/
def fsmC1wSt0 : RunState :=
  { states := fsmC1wC.states, error_state := errStateW, current := .named "S0",
    current_input := "go", last_stable_state_name := "S0", output := none,
    last_success_output := none }

/-- Witness for `fsm_run_outcomes` at a concrete FSM: the happy path
returns the last successful state's output. -/
theorem fsm_run_outcomes_witness :
    fsmC1w.run "go" 1000 = .ok "done" ∧
    (driverLoop fsmC1wC.transitions 1000 fsmC1wSt0).2.last_success_output = some "done" := by
  have hinv : DriverInv fsmC1wSt0 := by
    refine ⟨fun _ _ _ => rfl, ?_, ?_, rfl⟩
    · intro st hst
      rw [show dictGet fsmC1wSt0.states fsmC1wSt0.last_stable_state_name =
        some { StartState.make "S0" with target_state := some "A" } from rfl] at hst
      injection hst with h
      rw [← h]
      rfl
    · intro p hp
      simp [fsmC1wSt0, fsmC1wC] at hp
      rcases hp with hp | hp | hp <;> subst hp <;> rfl
  have h := (fsm_run_outcomes fsmC1w "go" 1000).2 fsmC1wC fsmC1wSt0 rfl (by decide) hinv
  exact ⟨(h.1 "done" _ rfl).1, (h.1 "done" _ rfl).2⟩
